import Mathlib

/-!
Shallow embedding of `python/paddle/fluid/contrib/utils/lookup_table_utils.py`
(PaddlePaddle contrib utilities for distributed lookup tables).

The Python module mutates framework `Program` objects (a global block holding
a variable dict and an operator list) and performs thin file-system I/O.  We
model programs, blocks, operators and variables as plain data, Python list
indexing (including negative-index wrap-around and `IndexError`) explicitly,
and the executor / `io.load_vars` effects as an event trace.  Framework
internals that are not part of the source file (variable lookup failure,
`Program.parse_from_string`, version support) are modelled as parameters or
as non-ValueError framework failures, since only their call sites appear in
the source.
-/

namespace Paddle

/-- Variable descriptor types (`core.VarDesc.VarType`) used by the module. -/
inductive VarType where
  | LOD_TENSOR
  | SELECTED_ROWS
  | FEED_MINIBATCH
  | FETCH_LIST
  | RAW
deriving DecidableEq, Repr

/-- A framework variable: name, shape, dtype, descriptor type, persistable flag. -/
structure Var where
  name : String
  shape : List Nat
  dtype : String
  vtype : VarType
  persistable : Bool
deriving DecidableEq, Repr

/-- Operator attribute values used by the module: booleans and strings. -/
inductive AttrVal where
  | b : Bool → AttrVal
  | s : String → AttrVal
deriving DecidableEq, Repr

/-- An operator node: type string, named input/output variable-name lists, attributes. -/
structure Op where
  type : String
  inputs : List (String × List String)
  outputs : List (String × List String)
  attrs : List (String × AttrVal)
deriving DecidableEq, Repr

/-- `op.input(name)`: the variable names bound to an input parameter (empty when absent). -/
def Op.input (o : Op) (k : String) : List String :=
  match o.inputs.find? (fun pr => pr.1 == k) with
  | some pr => pr.2
  | none => []

/-- `op.output(name)`: the variable names bound to an output parameter (empty when absent). -/
def Op.output (o : Op) (k : String) : List String :=
  match o.outputs.find? (fun pr => pr.1 == k) with
  | some pr => pr.2
  | none => []

/-- Attribute lookup on an operator. -/
def Op.attr (o : Op) (k : String) : Option AttrVal :=
  (o.attrs.find? (fun pr => pr.1 == k)).map (fun pr => pr.2)

/-- A block: its variable dict (as an ordered list keyed by `Var.name`) and operator list. -/
structure Block where
  vars : List Var
  ops : List Op
deriving DecidableEq, Repr

/-- Dict lookup `block.vars.get(name)` / `block.var(name)` success case. -/
def Block.findVar (b : Block) (nm : String) : Option Var :=
  b.vars.find? (fun v => v.name == nm)

/-- Dict deletion `del block.vars[name]`. -/
def Block.delVar (b : Block) (nm : String) : Block :=
  { b with vars := b.vars.filter (fun v => !(v.name == nm)) }

/-- Dict assignment `block.vars[v.name] = v` (overwrite in place, else append). -/
def Block.setVar (b : Block) (v : Var) : Block :=
  if b.vars.any (fun w => w.name == v.name) then
    { b with vars := b.vars.map (fun w => if w.name == v.name then v else w) }
  else
    { b with vars := b.vars ++ [v] }

/-- `block.append_op(...)`. -/
def Block.appendOp (b : Block) (o : Op) : Block :=
  { b with ops := b.ops ++ [o] }

/-- A program: its global block, the `_distributed_lookup_table` attribute
(`none` models Python `None`) and the `_version()` value. -/
structure Program where
  globalBlock : Block
  distributedLookupTable : Option String
  version : Nat
deriving DecidableEq, Repr

/-! ### Python list semantics -/

/-- Normalise a Python list index: a negative index counts from the end;
`none` means `IndexError`. -/
def pyIdx (n : Nat) (i : Int) : Option Nat :=
  let j : Int := if i < 0 then (n : Int) + i else i
  if 0 ≤ j ∧ j < (n : Int) then some j.toNat else none

/-- Python `l[i]` (read). -/
def pyGet {α : Type} (l : List α) (i : Int) : Option α :=
  (pyIdx l.length i).bind (fun j => l.get? j)

/-- Python `del l[i]`; `none` means `IndexError`. -/
def pyDelete {α : Type} (l : List α) (i : Int) : Option (List α) :=
  (pyIdx l.length i).map (fun j => l.eraseIdx j)

/-- Python `l.insert(i, a)`: clamps the index, never fails. -/
def pyInsertClamp {α : Type} (l : List α) (i : Int) (a : α) : List α :=
  let j : Int := if i < 0 then max 0 ((l.length : Int) + i) else min i (l.length : Int)
  l.insertIdx j.toNat a

/-- Helper for `pyRangeDown`: `n` descending values starting at `start`. -/
def pyRangeDownAux : Nat → Int → List Int
  | 0, _ => []
  | n + 1, start => start :: pyRangeDownAux n (start - 1)

/-- Python `range(start, stop, -1)` (descending, exclusive stop). -/
def pyRangeDown (start stop : Int) : List Int :=
  pyRangeDownAux (start - stop).toNat start

/-- Decimal decoding of a digit-character list (used to show that Python's
`"{}_{}".format` produces pairwise distinct shard names). -/
def decodeDigits (a : Nat) (cs : List Char) : Nat :=
  cs.foldl (fun x c => 10 * x + (c.toNat - 48)) a

/-- Python substring test `pat in hay`. -/
def strContains (hay pat : String) : Bool :=
  (List.range (hay.toList.length + 1)).any
    (fun i => pat.toList.isPrefixOf (hay.toList.drop i))

/-- `os.path.join` for the simple relative components used by the module. -/
def pyJoin (a b : String) : String := a ++ "/" ++ b

/-! ### Exceptions, events, environment -/

/-- Python exceptions raised by the module.  Failures of framework internals
whose source is not part of this repository snapshot (for example
`Block.var` on a missing name) are modelled as `frameworkFailure`, which is
distinct from `valueError`. -/
inductive PyErr where
  | valueError : String → PyErr
  | typeError : String → PyErr
  | keyError : String → PyErr
  | indexError : String → PyErr
  | osError : String → PyErr
  | frameworkFailure : String → PyErr
deriving DecidableEq, Repr

/-- Observable effects: one checkpoint variable loaded by `io.load_vars`
from a directory, or a program handed to `executor.run`. -/
inductive Event where
  | loadVar : String → String → Event
  | runProgram : Program → Event
deriving DecidableEq, Repr

/-- File-system state: existing directories, regular files with contents,
and `os.listdir` results per directory (in listing order). -/
structure FileSystem where
  dirs : List String
  fileContents : List (String × String)
  dirEntries : List (String × List String)

/-- `os.path.isdir`. -/
def FileSystem.isDir (fs : FileSystem) (d : String) : Bool :=
  fs.dirs.contains d

/-- `os.path.exists` (true for directories and regular files). -/
def FileSystem.pathExists (fs : FileSystem) (p : String) : Bool :=
  fs.isDir p || fs.fileContents.any (fun pr => pr.1 == p)

/-- `open(p, "rb").read()`; `none` models the `IOError` on a missing file. -/
def FileSystem.readFile (fs : FileSystem) (p : String) : Option String :=
  (fs.fileContents.find? (fun pr => pr.1 == p)).map (fun pr => pr.2)

/-- `os.listdir`; `none` models the `OSError` on a missing directory. -/
def FileSystem.listdir (fs : FileSystem) (d : String) : Option (List String) :=
  (fs.dirEntries.find? (fun pr => pr.1 == d)).map (fun pr => pr.2)

/-- Modelled from the spec: `Program.parse_from_string` and
`core._is_program_version_supported` are framework internals whose code is
not in the source file; the spec only says the model file is parsed into a
program whose version may be unsupported.  They are therefore parameters. -/
structure Env where
  parseFromString : String → Program
  versionSupported : Nat → Bool

/-- The Python argument passed where a `Program` is expected: a real
`Program` instance (truthy), a truthy non-`Program` value, or a falsy value
such as `None`. -/
inductive ProgArg where
  | someProg : Program → ProgArg
  | nonProgTruthy : ProgArg
  | falsy : ProgArg

/-- `model_filename = "__model__"`. -/
def model_filename : String := "__model__"

/-- `lookup_table_dir = "__lookup_table__"`. -/
def lookup_table_dir : String := "__lookup_table__"

/-! ### `__insert_lookup_sparse_table_op` and `__get_prefetch_op_tuples` -/

/-- The operator built by `__insert_lookup_sparse_table_op` (the inserted
`lookup_sparse_table` node, with its inputs, output and attributes). -/
def mkLookupSparseTableOp (ids w out : String) : Op :=
  { type := "lookup_sparse_table",
    inputs := [("Ids", [ids]), ("W", [w])],
    outputs := [("Out", [out])],
    attrs := [("is_distributed", .b false), ("is_sparse", .b true),
              ("grad_inplace", .b false)] }

/-- The 4-tuple returned by `__get_prefetch_op_tuples`:
`(split_ids_op_id, split_ids_inputs, merge_ids_outputs, need_delete_vars)`.
The first component is an `Int` because Python computes `i - 1`, which is
`-1` when the matched `prefetch` sits at index 0. -/
abbrev PrefetchTuple := Int × List String × List String × List String

/-- The scan loop of `__get_prefetch_op_tuples`: the first argument is the
full operator list (indexed by `pyGet`), the second the remaining suffix
(`ops.drop i`) and the third the loop index `i`.  Python evaluates
`op_types[i - 1]` (negative indexing wraps) and, only when it equals
`"split_ids"`, `op_types[i + 1]` (an `IndexError` when `i` is the last
index); on a full match it returns the tuple and breaks. -/
def scanPrefetchGo (ops : List Op) : List Op → Nat → Except PyErr (Option PrefetchTuple)
  | [], _ => .ok none
  | curOp :: rest, i =>
    if curOp.type == "prefetch" then
      match pyGet ops ((i : Int) - 1) with
      | none => scanPrefetchGo ops rest (i + 1)
      | some prevOp =>
        if prevOp.type == "split_ids" then
          match pyGet ops ((i : Int) + 1) with
          | none => .error (.indexError "list index out of range")
          | some nextOp =>
            if nextOp.type == "merge_ids" then
              .ok (some ((i : Int) - 1, prevOp.input "Ids", nextOp.output "Out",
                         curOp.input "X" ++ curOp.output "Out"))
            else scanPrefetchGo ops rest (i + 1)
        else scanPrefetchGo ops rest (i + 1)
    else scanPrefetchGo ops rest (i + 1)

/-- The scan of `__get_prefetch_op_tuples` over a whole operator list. -/
def scanPrefetch (ops : List Op) : Except PyErr (Option PrefetchTuple) :=
  scanPrefetchGo ops ops 0

/-- `__get_prefetch_op_tuples(main_program)`: scan the global block's
operators; `ok none` models returning Python `None`. -/
def getPrefetchOpTuples (p : Program) : Except PyErr (Option PrefetchTuple) :=
  scanPrefetch p.globalBlock.ops

/-! ### `convert_dist_to_sparse_program` -/

/-- The removal loop `for idx in range(split_ids_id + 2, split_ids_id - 1, -1):
program.global_block()._remove_op(idx)`.  The operator list mutated so far is
kept even when a removal raises. -/
def removeOpsLoop (ops : List Op) : List Int → Option PyErr × List Op
  | [] => (none, ops)
  | i :: rest =>
    match pyDelete ops i with
    | none => (some (.indexError "list assignment index out of range"), ops)
    | some ops' => removeOpsLoop ops' rest

/-- The insertion loop of `convert_dist_to_sparse_program`: for each
`(ids_name, out_name)` pair, look both variables up in the global block's
dict (a `KeyError` when absent) and insert the `lookup_sparse_table`
operator at index `split_ids_id`. -/
def insertLoop (vars : List Var) (embName : String) (si : Int) :
    List Op → List (String × String) → Option PyErr × List Op
  | ops, [] => (none, ops)
  | ops, (a, b) :: rest =>
    match vars.find? (fun v => v.name == a) with
    | none => (some (.keyError a), ops)
    | some idsVar =>
      match vars.find? (fun v => v.name == b) with
      | none => (some (.keyError b), ops)
      | some outVar =>
        insertLoop vars embName si
          (pyInsertClamp ops si (mkLookupSparseTableOp idsVar.name embName outVar.name))
          rest

/-- Result of running `convert_dist_to_sparse_program`: the raised exception
(if any), the final state of the (mutated) program object, and the value the
call returned (`some` = the program object itself, `none` = Python `None` or
no return because an exception propagated). -/
structure ConvertRes where
  err : Option PyErr
  prog : Program
  ret : Option Program
deriving Repr

/-- `convert_dist_to_sparse_program(program)`. -/
def convert_dist_to_sparse_program (p : Program) : ConvertRes :=
  match p.distributedLookupTable with
  | none => ⟨none, p, none⟩
  | some embName =>
    if embName == "" then ⟨none, p, none⟩
    else
      match p.globalBlock.findVar embName with
      | none => ⟨some (.frameworkFailure "rename: var not in current block"), p, none⟩
      | some origVar0 =>
        let originName := embName ++ ".origin"
        let blk1 := (p.globalBlock.delVar embName).setVar { origVar0 with name := originName }
        match blk1.findVar originName with
        | none => ⟨some (.keyError originName), { p with globalBlock := blk1 }, none⟩
        | some originVar =>
          let paramVar : Var :=
            ⟨embName, originVar.shape, originVar.dtype, .SELECTED_ROWS, true⟩
          let blk2 := blk1.setVar paramVar
          let p2 := { p with globalBlock := blk2 }
          match scanPrefetch blk2.ops with
          | .error e => ⟨some e, p2, none⟩
          | .ok none =>
            ⟨some (.typeError "NoneType object is not subscriptable"), p2, none⟩
          | .ok (some (si, insNames, outNames, _needDelete)) =>
            match removeOpsLoop blk2.ops (pyRangeDown (si + 2) (si - 1)) with
            | (some e, ops1) =>
              ⟨some e, { p2 with globalBlock := { blk2 with ops := ops1 } }, none⟩
            | (none, ops1) =>
              match insertLoop blk2.vars embName si ops1 (insNames.zip outNames) with
              | (e?, ops2) =>
                let pF := { p2 with globalBlock := { blk2 with ops := ops2 } }
                ⟨e?, pF, if e?.isNone then some pF else none⟩

/-! ### `_load_persistable_vars` and its checkpoint predicate -/

/-- The predicate `is_valid` built by `_is_checkpoint_var(exclude_fluid_vars)`:
reject `FEED_MINIBATCH` / `FETCH_LIST` / `RAW` descriptor types, names
containing `@GRAD`, `.trainer_`, `.block` or `tmp_`, and names in the
exclusion list; otherwise accept exactly the persistable variables. -/
def is_valid (excludeFluidVars : List String) (v : Var) : Bool :=
  if v.vtype == .FEED_MINIBATCH || v.vtype == .FETCH_LIST || v.vtype == .RAW then
    false
  else if strContains v.name "@GRAD" then false
  else if strContains v.name ".trainer_" then false
  else if strContains v.name ".block" then false
  else if strContains v.name "tmp_" then false
  else if excludeFluidVars.contains v.name then false
  else v.persistable

/-- Modelled from the spec: `io.load_vars` is a framework routine ("invoking
framework-provided load operators") whose code is not in the source file; it
loads from `dirname` each program variable accepted by the predicate, here
recorded as one `loadVar` event per accepted variable in program order. -/
def io_load_vars (dirname : String) (p : Program) (pred : Var → Bool) : List Event :=
  (p.globalBlock.vars.filter pred).map (fun v => .loadVar dirname v.name)

/-- `_load_persistable_vars(executor, dirname, program, lookup_table_vars)`. -/
def load_persistable_vars (dirname : String) (p : Program)
    (lookupTableVars : List String) : List Event :=
  io_load_vars dirname p (is_valid lookupTableVars)

/-! ### `load_persistables_for_increment` -/

/-- Result of running one of the loader entry points: the raised exception
(if any), the event trace produced before the call ended, and the returned
program (`none` when the function returns `None` or raised). -/
structure RunRes where
  err : Option PyErr
  events : List Event
  ret : Option Program
deriving Repr

/-- The one-operator program built by the inner `__load_lookup_table_vars`
of `load_persistables_for_increment`: a fresh `Program()` whose global block
holds a single `load` operator writing the lookup-table variable, with the
`file_path` attribute set to `lookup_table_var_path`. -/
def incrementLoadProgram (varName path : String) : Program :=
  { globalBlock :=
      { vars := [],
        ops := [{ type := "load", inputs := [],
                  outputs := [("Out", [varName])],
                  attrs := [("file_path", .s path)] }] },
    distributedLookupTable := none,
    version := 0 }

/-- `load_persistables_for_increment(dirname, executor, program,
lookup_table_var, lookup_table_var_path)`. -/
def load_persistables_for_increment (fs : FileSystem) (dirname : String)
    (programArg : ProgArg) (lookupTableVar lookupTableVarPath : String) : RunRes :=
  if ¬ fs.isDir dirname then
    ⟨some (.valueError "There is no directory named"), [], none⟩
  else if ¬ fs.pathExists lookupTableVarPath then
    ⟨some (.valueError "There is no file named"), [], none⟩
  else
    match programArg with
    | .someProg p =>
      let evs := load_persistable_vars dirname p [lookupTableVar]
      match p.globalBlock.findVar lookupTableVar with
      | none => ⟨some (.frameworkFailure "var not in this block"), evs, none⟩
      | some v =>
        ⟨none, evs ++ [.runProgram (incrementLoadProgram v.name lookupTableVarPath)], none⟩
    | _ => ⟨some (.valueError "program must be an instance of fluid.Program"), [], none⟩

/-! ### `load_persistables_for_inference` -/

/-- The name `"{}_{}".format(emb_var.name, i)` of the `i`-th temporary
shard variable. -/
def shardName (base : String) (i : Nat) : String :=
  base ++ "_" ++ toString i

/-- The `i`-th temporary shard variable created by the inference loader:
persistable, `SELECTED_ROWS`, same shape and dtype as the table variable. -/
def shardVar (embVar : Var) (i : Nat) : Var :=
  ⟨shardName embVar.name i, embVar.shape, embVar.dtype, .SELECTED_ROWS, true⟩

/-- The `load` operator appended for the `i`-th shard: its output is the
`i`-th temporary variable and its `file_path` is
`os.path.join(lookup_table_dirname, var_name)`. -/
def shardLoadOp (tableDirname : String) (embVar : Var) (i : Nat) : Op :=
  { type := "load", inputs := [],
    outputs := [("Out", [shardName embVar.name i])],
    attrs := [("file_path", .s (pyJoin tableDirname (shardName embVar.name i)))] }

/-- The shard-loading loop `for i, emb_file in enumerate(emb_files)` of the
inner `__load_lookup_table_vars` of `load_persistables_for_inference`: for
each discovered file (used only through its enumeration index) create a
persistable `SELECTED_ROWS` variable named `<table>_<i>`, append a `load`
operator whose `file_path` is `<lookup_table_dirname>/<table>_<i>`, and
collect the variable in `sums`. -/
def buildShardLoads (tableDirname : String) (embVar : Var) :
    List (Nat × String) → Block → List Var → Block × List Var
  | [], blk, sums => (blk, sums)
  | (i, _embFile) :: rest, blk, sums =>
    let paramVar : Var := shardVar embVar i
    let blk := blk.setVar paramVar
    let blk := blk.appendOp (shardLoadOp tableDirname embVar i)
    buildShardLoads tableDirname embVar rest blk (sums ++ [paramVar])

/-- The convert program the inference loader builds, in closed form: the
`SELECTED_ROWS` result variable carrying the table's name, one temporary
shard variable and one `load` operator per selected directory entry, a
`sum` operator combining the temporaries into the result variable, and a
`delete_var` operator removing them. -/
def inferenceConvertProgram (dirname tbl : String) (v : Var)
    (entries : List String) : Program :=
  let n := (entries.filter (fun e => strContains e tbl)).length
  let ev : Var := ⟨v.name, v.shape, v.dtype, .SELECTED_ROWS, true⟩
  let td := pyJoin dirname lookup_table_dir
  { globalBlock :=
      { vars := ev :: (List.range n).map (shardVar ev),
        ops := (List.range n).map (shardLoadOp td ev)
          ++ [{ type := "sum",
                inputs := [("X", (List.range n).map (shardName ev.name))],
                outputs := [("Out", [ev.name])], attrs := [] },
              { type := "delete_var",
                inputs := [("X", (List.range n).map (shardName ev.name))],
                outputs := [], attrs := [] }] },
    distributedLookupTable := none, version := 0 }

/-- The body shared by both branches of `load_persistables_for_inference`
once a program is in hand: `_load_persistable_vars` followed by the inner
`__load_lookup_table_vars(executor, dirname, program, [name])`, then
`return program`. -/
def inferenceBody (fs : FileSystem) (dirname : String) (p : Program)
    (lookupTableVarName : String) : RunRes :=
  let evs := load_persistable_vars dirname p [lookupTableVarName]
  if ¬ fs.isDir dirname then
    ⟨some (.valueError "There is no directory named"), evs, none⟩
  else
    let tableDirname := pyJoin dirname lookup_table_dir
    match p.globalBlock.findVar lookupTableVarName with
    | none => ⟨some (.frameworkFailure "var not in this block"), evs, none⟩
    | some embVar0 =>
      match fs.listdir tableDirname with
      | none => ⟨some (.osError "No such file or directory"), evs, none⟩
      | some entries =>
        let embFiles := entries.filter (fun e => strContains e lookupTableVarName)
        let embVar : Var := ⟨embVar0.name, embVar0.shape, embVar0.dtype,
                             .SELECTED_ROWS, true⟩
        let blk0 : Block := Block.setVar ⟨[], []⟩ embVar
        match buildShardLoads tableDirname embVar embFiles.enum blk0 [] with
        | (blk1, sums) =>
          let sumNames := sums.map (fun v => v.name)
          let blk2 := blk1.appendOp
            { type := "sum", inputs := [("X", sumNames)],
              outputs := [("Out", [embVar.name])], attrs := [] }
          let blk3 := blk2.appendOp
            { type := "delete_var", inputs := [("X", sumNames)],
              outputs := [], attrs := [] }
          let convertProgram : Program :=
            { globalBlock := blk3, distributedLookupTable := none, version := 0 }
          ⟨none, evs ++ [.runProgram convertProgram], some p⟩

/-- `load_persistables_for_inference(dirname, executor, program,
lookup_table_var_name)`. -/
def load_persistables_for_inference (fs : FileSystem) (env : Env)
    (dirname : String) (programArg : ProgArg)
    (lookupTableVarName : String) : RunRes :=
  if ¬ fs.isDir dirname then
    ⟨some (.valueError "There is no directory named"), [], none⟩
  else
    match programArg with
    | .someProg p => inferenceBody fs dirname p lookupTableVarName
    | .nonProgTruthy =>
      ⟨some (.valueError "program must be an instance of fluid.Program"), [], none⟩
    | .falsy =>
      let localModel := pyJoin dirname model_filename
      match fs.readFile localModel with
      | none => ⟨some (.osError "No such file or directory"), [], none⟩
      | some programDescStr =>
        let p := env.parseFromString programDescStr
        if ¬ env.versionSupported p.version then
          ⟨some (.valueError "Unsupported program version"), [], none⟩
        else
          inferenceBody fs dirname p lookupTableVarName

/-! ### Observation helpers used by the claims -/

/-- The `file_path` attribute of an operator when it is a `load`. -/
def loadFilePathOf (o : Op) : Option String :=
  if o.type == "load" then
    match o.attr "file_path" with
    | some (.s fp) => some fp
    | _ => none
  else none

/-- The `file_path` attributes of the `load` operators of a block. -/
def loadFilePaths (b : Block) : List String :=
  b.ops.filterMap loadFilePathOf

/-- The shard files found by the directory scan of
`__load_lookup_table_vars` (inference variant), as full paths: the entries
of `<dirname>/__lookup_table__` whose name contains the table name. -/
def discoveredShardFiles (fs : FileSystem) (dirname tableName : String) : List String :=
  (((fs.listdir (pyJoin dirname lookup_table_dir)).getD []).filter
    (fun e => strContains e tableName)).map (pyJoin (pyJoin dirname lookup_table_dir))

/-- The variable names loaded by `loadVar` events of a trace. -/
def loadVarNames (evs : List Event) : List String :=
  evs.filterMap (fun e =>
    match e with
    | .loadVar _ nm => some nm
    | _ => none)

/-- The global block of `main_program` contains the consecutive operator
sequence `split_ids`, `prefetch`, `merge_ids` with the `prefetch` at
(non-negative, non-wrapping) index `i`. -/
def consecutiveTripleAt (ops : List Op) (i : Nat) : Prop :=
  1 ≤ i ∧
  (ops.map Op.type).get? (i - 1) = some "split_ids" ∧
  (ops.map Op.type).get? i = some "prefetch" ∧
  (ops.map Op.type).get? (i + 1) = some "merge_ids"

instance (ops : List Op) (i : Nat) : Decidable (consecutiveTripleAt ops i) := by
  unfold consecutiveTripleAt
  infer_instance

/-- The neighbour test actually evaluated by the scan loop of
`__get_prefetch_op_tuples` at loop index `j`: `op_types[j]` is `prefetch`,
`op_types[j - 1]` (Python indexing, so wrapping to the last element when
`j = 0`) is `split_ids`, and `op_types[j + 1]` exists and is `merge_ids`. -/
def codeMatchAt (ops : List Op) (j : Nat) : Prop :=
  (∃ o, ops.get? j = some o ∧ o.type = "prefetch") ∧
  (∃ o, pyGet ops ((j : Int) - 1) = some o ∧ o.type = "split_ids") ∧
  (∃ o, pyGet ops ((j : Int) + 1) = some o ∧ o.type = "merge_ids")

instance (ops : List Op) (j : Nat) : Decidable (codeMatchAt ops j) := by
  unfold codeMatchAt
  infer_instance

/-- The operator at Python index `i` (default operator when out of range;
only used at indices known to be in range). -/
def opAt (ops : List Op) (i : Int) : Op :=
  (pyGet ops i).getD ⟨"", [], [], []⟩

/-- The tuple `__get_prefetch_op_tuples` builds when its scan matches at
loop index `i`. -/
def mkTupleAt (ops : List Op) (i : Nat) : PrefetchTuple :=
  ((i : Int) - 1,
   (opAt ops ((i : Int) - 1)).input "Ids",
   (opAt ops ((i : Int) + 1)).output "Out",
   (opAt ops (i : Int)).input "X" ++ (opAt ops (i : Int)).output "Out")

/-- The global block's variable state after the renaming and creation steps
of `convert_dist_to_sparse_program`: the table variable `emb` renamed to
`emb.origin`, and a fresh persistable `SELECTED_ROWS` variable named `emb`
with the original shape and dtype. -/
def convertBlock2 (blk : Block) (emb : String) (v : Var) : Block :=
  ((blk.delVar emb).setVar { v with name := emb ++ ".origin" }).setVar
    ⟨emb, v.shape, v.dtype, .SELECTED_ROWS, true⟩

/-! ### Concrete instances used by counterexamples and witnesses -/

/-- An operator with a distinguishing `tag` attribute. -/
def tagOp (t tag : String) (ins outs : List (String × List String)) : Op :=
  { type := t, inputs := ins, outputs := outs, attrs := [("tag", .s tag)] }

/-- A program whose `_distributed_lookup_table` names an existing variable
but whose global block has no `prefetch` structure at all. -/
def cexProgC1 : Program :=
  { globalBlock := { vars := [⟨"emb", [10, 8], "float32", .LOD_TENSOR, true⟩], ops := [] },
    distributedLookupTable := some "emb", version := 0 }

/-- A program whose first genuine `split_ids; prefetch; merge_ids` triple
sits at operator indices 2, 3, 4, but whose operator 0 is a `prefetch` whose
Python-indexed neighbours (`op_types[-1]` and `op_types[1]`) also satisfy
the scan's test. -/
def cexProgC2 : Program :=
  { globalBlock :=
      { vars := [⟨"emb", [10, 8], "float32", .LOD_TENSOR, true⟩,
                 ⟨"ids5", [1], "int64", .LOD_TENSOR, false⟩,
                 ⟨"out1", [1], "float32", .LOD_TENSOR, false⟩],
        ops := [ tagOp "prefetch" "p0" [] [],
                 tagOp "merge_ids" "m1" [] [("Out", ["out1"])],
                 tagOp "split_ids" "s2" [] [],
                 tagOp "prefetch" "p3" [] [],
                 tagOp "merge_ids" "m4" [] [],
                 tagOp "split_ids" "s5" [("Ids", ["ids5"])] [] ] },
    distributedLookupTable := some "emb", version := 0 }

/-- A well-formed trainer program: one genuine triple at indices 1, 2, 3
and the referenced variables present. -/
def goodProg : Program :=
  { globalBlock :=
      { vars := [⟨"emb", [10, 8], "float32", .LOD_TENSOR, true⟩,
                 ⟨"ids", [1], "int64", .LOD_TENSOR, false⟩,
                 ⟨"out", [1], "float32", .LOD_TENSOR, false⟩,
                 ⟨"po", [1], "float32", .LOD_TENSOR, false⟩],
        ops := [ tagOp "read" "r0" [] [],
                 tagOp "split_ids" "s1" [("Ids", ["ids"])] [],
                 tagOp "prefetch" "p2" [("X", ["px"])] [("Out", ["po"])],
                 tagOp "merge_ids" "m3" [] [("Out", ["out"])],
                 tagOp "fc" "f4" [] [] ] },
    distributedLookupTable := some "emb", version := 0 }

/-- A program exercising the out-of-range branch of the scan: its last
operator is a `prefetch` preceded by `split_ids`, so the scan evaluates
`op_types[i + 1]` past the end of the list. -/
def cexProgC10err : Program :=
  { globalBlock :=
      { vars := [⟨"emb", [10, 8], "float32", .LOD_TENSOR, true⟩],
        ops := [ tagOp "split_ids" "s0" [] [],
                 tagOp "prefetch" "p1" [] [] ] },
    distributedLookupTable := some "emb", version := 0 }

/-- A program with a genuine triple whose `split_ids` references a variable
absent from the global block. -/
def cexProgC10vars : Program :=
  { globalBlock :=
      { vars := [⟨"emb", [10, 8], "float32", .LOD_TENSOR, true⟩],
        ops := [ tagOp "split_ids" "s0" [("Ids", ["missing"])] [],
                 tagOp "prefetch" "p1" [] [],
                 tagOp "merge_ids" "m2" [] [("Out", ["mout"])] ] },
    distributedLookupTable := some "emb", version := 0 }

/-- A pserver-style program holding the lookup-table variable and one dense
persistable variable. -/
def pEmb : Program :=
  { globalBlock :=
      { vars := [⟨"fc_w", [4, 4], "float32", .LOD_TENSOR, true⟩,
                 ⟨"emb", [10, 8], "float32", .LOD_TENSOR, true⟩],
        ops := [] },
    distributedLookupTable := none, version := 0 }

/-- A file system whose `__lookup_table__` directory holds one shard file
named `emb.block0` (selected by the scan, since it contains `emb`). -/
def fsC6 : FileSystem :=
  { dirs := ["d", "d/__lookup_table__"],
    fileContents := [],
    dirEntries := [("d/__lookup_table__", ["emb.block0"])] }

/-- A file system for increment loading: directory `d` and the lookup-table
file `d/table_file`. -/
def fsC4 : FileSystem :=
  { dirs := ["d"],
    fileContents := [("d/table_file", "bytes")],
    dirEntries := [] }

/-- A file system holding a serialized `__model__` file and a shard dir. -/
def fsC7 : FileSystem :=
  { dirs := ["d", "d/__lookup_table__"],
    fileContents := [("d/__model__", "modelbytes")],
    dirEntries := [("d/__lookup_table__", ["emb_0"])] }

/-- An environment that parses any model bytes to `pEmb` and supports only
program version 0. -/
def envC : Env :=
  { parseFromString := fun _ => pEmb,
    versionSupported := fun n => n == 0 }

/-- The convert program that `load_persistables_for_inference` builds and
runs on `fsC6` / `pEmb` (one shard discovered). -/
def cpC6 : Program :=
  { globalBlock :=
      { vars := [⟨"emb", [10, 8], "float32", .SELECTED_ROWS, true⟩,
                 ⟨"emb_0", [10, 8], "float32", .SELECTED_ROWS, true⟩],
        ops := [ { type := "load", inputs := [],
                   outputs := [("Out", ["emb_0"])],
                   attrs := [("file_path", .s "d/__lookup_table__/emb_0")] },
                 { type := "sum", inputs := [("X", ["emb_0"])],
                   outputs := [("Out", ["emb"])], attrs := [] },
                 { type := "delete_var", inputs := [("X", ["emb_0"])],
                   outputs := [], attrs := [] } ] },
    distributedLookupTable := none, version := 0 }

/-! ## Theorems -/

/-! ### Decimal shard names are pairwise distinct -/

/-- Value of `Nat.digitChar` on a decimal digit. -/
theorem digitChar_sub_48 (d : Nat) (h : d < 10) : (Nat.digitChar d).toNat - 48 = d := by
  interval_cases d <;> rfl

/-- `decodeDigits` inverts `Nat.toDigitsCore` for base 10. -/
theorem decodeDigits_toDigitsCore :
    ∀ (fuel n : Nat) (ds : List Char), n < fuel →
      decodeDigits 0 (Nat.toDigitsCore 10 fuel n ds) = decodeDigits n ds := by
  intro fuel
  induction fuel with
  | zero => intro n ds h; omega
  | succ fuel ih =>
    intro n ds h
    simp only [Nat.toDigitsCore]
    by_cases h10 : n / 10 = 0
    · rw [if_pos h10]
      show decodeDigits (10 * 0 + ((Nat.digitChar (n % 10)).toNat - 48)) ds
          = decodeDigits n ds
      rw [digitChar_sub_48 (n % 10) (Nat.mod_lt n (by omega))]
      congr 1
      omega
    · rw [if_neg h10]
      rw [ih (n / 10) _ (by omega)]
      show decodeDigits (10 * (n / 10) + ((Nat.digitChar (n % 10)).toNat - 48)) ds
          = decodeDigits n ds
      rw [digitChar_sub_48 (n % 10) (Nat.mod_lt n (by omega))]
      congr 1
      omega

/-- The decimal rendering of a natural number is injective. -/
theorem toString_nat_inj {m n : Nat} (h : toString m = toString n) : m = n := by
  have hm : decodeDigits 0 (Nat.toDigits 10 m) = m := by
    have := decodeDigits_toDigitsCore (m + 1) m [] (by omega)
    simpa [Nat.toDigits, decodeDigits] using this
  have hn : decodeDigits 0 (Nat.toDigits 10 n) = n := by
    have := decodeDigits_toDigitsCore (n + 1) n [] (by omega)
    simpa [Nat.toDigits, decodeDigits] using this
  have hdig : Nat.toDigits 10 m = Nat.toDigits 10 n := by
    have h' : Nat.repr m = Nat.repr n := h
    simpa [Nat.repr, List.asString] using congrArg String.data h'
  rw [← hm, ← hn, hdig]

/-- Distinct shard indices give distinct shard names. -/
theorem shardName_injective (base : String) {i j : Nat}
    (h : shardName base i = shardName base j) : i = j := by
  unfold shardName at h
  have hd := congrArg String.data h
  simp only [String.data_append] at hd
  have h1 := List.append_cancel_left hd
  exact toString_nat_inj (String.ext h1)

/-- A shard name is never the bare table name. -/
theorem shardName_ne_base (base : String) (i : Nat) : shardName base i ≠ base := by
  intro h
  have hlen := congrArg String.length h
  have h1 : ("_" : String).length = 1 := rfl
  simp only [shardName, String.length_append] at hlen
  omega

/-- C9: the checkpoint predicate `is_valid` built by `_is_checkpoint_var`
accepts a variable iff it is persistable, its descriptor type is none of
`FEED_MINIBATCH`, `FETCH_LIST`, `RAW`, its name contains none of `@GRAD`,
`.trainer_`, `.block`, `tmp_`, and its name is not in the exclusion list;
and `_load_persistable_vars` (shared by `load_persistables_for_increment`
and `load_persistables_for_inference`) loads exactly the accepted variables
of the program. -/
theorem C9_checkpoint_predicate :
    (∀ (ex : List String) (v : Var),
      is_valid ex v = true ↔
        (v.persistable = true ∧
         v.vtype ≠ VarType.FEED_MINIBATCH ∧
         v.vtype ≠ VarType.FETCH_LIST ∧
         v.vtype ≠ VarType.RAW ∧
         strContains v.name "@GRAD" = false ∧
         strContains v.name ".trainer_" = false ∧
         strContains v.name ".block" = false ∧
         strContains v.name "tmp_" = false ∧
         v.name ∉ ex)) ∧
    (∀ (dirname : String) (p : Program) (ex : List String),
      loadVarNames (load_persistable_vars dirname p ex) =
        (p.globalBlock.vars.filter (is_valid ex)).map Var.name) := by
  constructor
  · intro ex v
    simp only [is_valid]
    split_ifs with h1 h2 h3 h4 h5 h6
    all_goals simp_all [List.elem_iff]
    all_goals tauto
  · intro dirname p ex
    simp only [loadVarNames, load_persistable_vars, io_load_vars]
    generalize p.globalBlock.vars.filter (is_valid ex) = l
    induction l with
    | nil => rfl
    | cons v t ih => simpa [List.filterMap_cons] using ih

/-- C8: `load_persistables_for_increment` raises `ValueError` iff `dirname`
is not an existing directory, or `lookup_table_var_path` does not exist, or
the program argument is not a `Program` instance; and when it raises
`ValueError`, no load has been performed and no program has been run. -/
theorem C8_increment_validation (fs : FileSystem) (dirname : String)
    (arg : ProgArg) (tbl path : String) :
    ((∃ m, (load_persistables_for_increment fs dirname arg tbl path).err
        = some (.valueError m)) ↔
      (fs.isDir dirname = false ∨ fs.pathExists path = false ∨
        ∀ q, arg ≠ .someProg q)) ∧
    ((∃ m, (load_persistables_for_increment fs dirname arg tbl path).err
        = some (.valueError m)) →
      (load_persistables_for_increment fs dirname arg tbl path).events = []) := by
  by_cases h1 : fs.isDir dirname
  · by_cases h2 : fs.pathExists path
    · cases arg with
      | someProg q =>
        constructor
        · constructor
          · rintro ⟨m, hm⟩
            simp only [load_persistables_for_increment, h1, h2] at hm
            cases h3 : q.globalBlock.findVar tbl <;> simp_all
          · rintro (h | h | h)
            · simp_all
            · simp_all
            · exact absurd rfl (h q)
        · rintro ⟨m, hm⟩
          simp only [load_persistables_for_increment, h1, h2] at hm
          cases h3 : q.globalBlock.findVar tbl <;> simp_all
      | nonProgTruthy =>
        simp [load_persistables_for_increment, h1, h2]
      | falsy =>
        simp [load_persistables_for_increment, h1, h2]
    · simp [load_persistables_for_increment, h1, h2]
  · simp [load_persistables_for_increment, h1]

/-! ### Python indexing facts -/

/-- Python indexing at a non-negative index is plain list indexing. -/
theorem pyGet_natCast {α : Type} (l : List α) (k : Nat) :
    pyGet l (k : Int) = l.get? k := by
  simp only [pyGet, pyIdx]
  have h0 : ¬ ((k : Int) < 0) := by omega
  simp only [h0, if_false]
  by_cases h : k < l.length
  · have hc : 0 ≤ (k : Int) ∧ (k : Int) < (l.length : Int) := by omega
    rw [if_pos hc]
    simp [Option.bind]
  · have hc : ¬ (0 ≤ (k : Int) ∧ (k : Int) < (l.length : Int)) := by omega
    rw [if_neg hc]
    exact (List.get?_eq_none.mpr (by omega)).symm

/-- Python index `-1` reads the last element. -/
theorem pyGet_neg_one {α : Type} (l : List α) (h : l ≠ []) :
    pyGet l (-1) = l.get? (l.length - 1) := by
  have hl : 0 < l.length := List.length_pos.mpr h
  simp only [pyGet, pyIdx]
  have h0 : (-1 : Int) < 0 := by omega
  simp only [h0, if_true]
  have hc : 0 ≤ (l.length : Int) + (-1) ∧ (l.length : Int) + (-1) < (l.length : Int) := by
    omega
  rw [if_pos hc]
  simp only [Option.bind]
  congr 1
  omega

/-- A successful Python read returns an element of the list. -/
theorem pyGet_mem {α : Type} {l : List α} {i : Int} {a : α}
    (h : pyGet l i = some a) : a ∈ l := by
  simp only [pyGet] at h
  cases hp : pyIdx l.length i with
  | none => rw [hp] at h; cases h
  | some j =>
    rw [hp] at h
    exact List.get?_mem h

/-- A successful Python read at a non-negative index bounds the index. -/
theorem pyGet_some_lt {α : Type} {l : List α} {k : Nat} {a : α}
    (h : pyGet l (k : Int) = some a) : k < l.length := by
  rw [pyGet_natCast] at h
  exact List.get?_eq_some.mp h |>.1

/-- The removal loop's range is the three indices `a + 2`, `a + 1`, `a`. -/
theorem pyRangeDown_three (a : Int) : pyRangeDown (a + 2) (a - 1) = [a + 2, a + 1, a] := by
  have h3 : (a + 2 - (a - 1)).toNat = 3 := by omega
  rw [pyRangeDown, h3]
  show [a + 2, a + 2 - 1, a + 2 - 1 - 1] = [a + 2, a + 1, a]
  have e1 : a + 2 - 1 = a + 1 := by omega
  have e2 : a + 1 - 1 = a := by omega
  rw [e1, e2]

/-- Erasing indices `k + 2`, `k + 1`, `k` (in that order) removes the three
consecutive elements starting at `k`. -/
theorem erase3 {α : Type} : ∀ (k : Nat) (l : List α), k + 2 < l.length →
    ((l.eraseIdx (k + 2)).eraseIdx (k + 1)).eraseIdx k = l.take k ++ l.drop (k + 3) := by
  intro k
  induction k with
  | zero =>
    intro l h
    match l, h with
    | a :: b :: c :: t, _ =>
      simp [List.eraseIdx_cons_succ, List.eraseIdx_cons_zero]
  | succ k ih =>
    intro l h
    match l, h with
    | a :: t, h =>
      have ht : k + 2 < t.length := by
        simp only [List.length_cons] at h
        omega
      show (((a :: t).eraseIdx (k + 3)).eraseIdx (k + 2)).eraseIdx (k + 1)
          = (a :: t).take (k + 1) ++ (a :: t).drop (k + 4)
      rw [show k + 3 = (k + 2) + 1 from rfl, List.eraseIdx_cons_succ,
        List.eraseIdx_cons_succ, List.eraseIdx_cons_succ,
        List.take_succ_cons, List.drop_succ_cons, ih t ht]
      rfl

/-- Inserting at the length of the left part lands between the parts. -/
theorem insertIdx_append_self {α : Type} :
    ∀ (pre post : List α) (x : α),
      (pre ++ post).insertIdx pre.length x = pre ++ x :: post := by
  intro pre
  induction pre with
  | nil =>
    intro post x
    simp [List.insertIdx_zero]
  | cons a t ih =>
    intro post x
    simp only [List.cons_append, List.length_cons, List.insertIdx_succ_cons, ih]

/-! ### Variable-dict facts -/

/-- In-place dict overwrite: the first entry with the assigned name maps to
the assigned variable. -/
theorem find?_map_replace (w : Var) :
    ∀ l : List Var, l.any (fun x => x.name == w.name) = true →
      (l.map (fun x => if x.name == w.name then w else x)).find?
        (fun x => x.name == w.name) = some w := by
  intro l
  induction l with
  | nil => intro h; cases h
  | cons a t ih =>
    intro h
    cases ha : a.name == w.name with
    | true =>
      rw [List.map_cons, if_pos ha, List.find?_cons,
        show (w.name == w.name) = true from by simp]
    | false =>
      have hneg : ¬ ((a.name == w.name) = true) := by simp [ha]
      simp only [List.any_cons, ha, Bool.false_or] at h
      rw [List.map_cons, if_neg hneg, List.find?_cons, ha]
      exact ih h

/-- In-place dict overwrite under a different name preserves lookup
success for the other name. -/
theorem find?_map_replace_isSome (w : Var) (nm : String) (hw : w.name ≠ nm) :
    ∀ l : List Var, (l.find? (fun x => x.name == nm)).isSome = true →
      ((l.map (fun x => if x.name == w.name then w else x)).find?
        (fun x => x.name == nm)).isSome = true := by
  have hwnm : (w.name == nm) = false := by
    rw [beq_eq_false_iff_ne]
    exact hw
  intro l
  induction l with
  | nil => intro h; simp at h
  | cons a t ih =>
    intro h
    rw [List.find?_cons] at h
    cases haw : a.name == w.name with
    | true =>
      have h1 : a.name = w.name := by simpa using haw
      have hanm : (a.name == nm) = false := by
        rw [beq_eq_false_iff_ne, h1]
        exact hw
      rw [hanm] at h
      rw [List.map_cons, if_pos haw, List.find?_cons, hwnm]
      exact ih h
    | false =>
      have hneg : ¬ ((a.name == w.name) = true) := by simp [haw]
      rw [List.map_cons, if_neg hneg, List.find?_cons]
      cases ha : a.name == nm with
      | true => rfl
      | false =>
        rw [ha] at h
        exact ih h

/-- After a dict assignment, looking the assigned name up yields the
assigned variable. -/
theorem setVar_findVar_self (b : Block) (w : Var) :
    (b.setVar w).findVar w.name = some w := by
  unfold Block.setVar Block.findVar
  by_cases hany : b.vars.any (fun x => x.name == w.name)
  · rw [if_pos hany]
    exact find?_map_replace w b.vars hany
  · rw [if_neg hany]
    show (b.vars ++ [w]).find? (fun x => x.name == w.name) = some w
    rw [List.find?_append]
    have hnone : b.vars.find? (fun x => x.name == w.name) = none := by
      rw [List.find?_eq_none]
      intro x hx hbeq
      exact hany (List.any_eq_true.mpr ⟨x, hx, hbeq⟩)
    rw [hnone, Option.none_or]
    rw [List.find?_cons, show (w.name == w.name) = true from by simp]

/-- Deleting a name leaves no entry with that name. -/
theorem delVar_any_false (b : Block) (nm : String) :
    (b.delVar nm).vars.any (fun x => x.name == nm) = false := by
  unfold Block.delVar
  rw [List.any_eq_false]
  intro x hx
  have := List.of_mem_filter hx
  have h2 : (x.name == nm) = false := by simpa using this
  simp [h2]

/-- Deleting one name preserves successful lookup of another name. -/
theorem find?_filter_ne (nm del : String) (hne : nm ≠ del) :
    ∀ l : List Var, (l.find? (fun x => x.name == nm)).isSome = true →
      ((l.filter (fun x => !(x.name == del))).find?
        (fun x => x.name == nm)).isSome = true := by
  intro l
  induction l with
  | nil => intro h; simp at h
  | cons a t ih =>
    intro h
    rw [List.find?_cons] at h
    cases ha : a.name == nm with
    | true =>
      have hdel : (a.name == del) = false := by
        rw [beq_eq_false_iff_ne]
        intro hc
        apply hne
        have h1 : a.name = nm := by simpa using ha
        rw [← h1, hc]
      have hkeep : (!(a.name == del)) = true := by rw [hdel]; rfl
      rw [List.filter_cons, hkeep, if_pos rfl, List.find?_cons, ha]
      rfl
    | false =>
      rw [ha] at h
      rw [List.filter_cons]
      cases hk : !(a.name == del) with
      | true =>
        rw [if_pos rfl, List.find?_cons, ha]
        exact ih h
      | false =>
        simp only [Bool.false_eq_true, if_false]
        exact ih h

/-- A dict assignment under a different name does not create the name. -/
theorem setVar_any_false (b : Block) (w : Var) (nm : String) (hw : w.name ≠ nm)
    (h : b.vars.any (fun x => x.name == nm) = false) :
    (b.setVar w).vars.any (fun x => x.name == nm) = false := by
  unfold Block.setVar
  by_cases hany : b.vars.any (fun x => x.name == w.name)
  · rw [if_pos hany]
    show (b.vars.map (fun x => if x.name == w.name then w else x)).any
      (fun x => x.name == nm) = false
    rw [List.any_eq_false] at h ⊢
    intro x hx
    obtain ⟨y, hy, hyx⟩ := List.mem_map.mp hx
    by_cases hyw : (y.name == w.name) = true
    · rw [if_pos hyw] at hyx
      subst hyx
      simpa using hw
    · rw [if_neg hyw] at hyx
      subst hyx
      exact h y hy
  · rw [if_neg hany]
    show (b.vars ++ [w]).any (fun x => x.name == nm) = false
    rw [List.any_append, h]
    simpa using hw

/-- A dict assignment of an absent name appends the entry. -/
theorem setVar_append (b : Block) (w : Var)
    (h : b.vars.any (fun x => x.name == w.name) = false) :
    (b.setVar w).vars = b.vars ++ [w] := by
  unfold Block.setVar
  rw [if_neg (by simp [h])]

/-- A dict assignment under a different name preserves lookup success. -/
theorem setVar_findVar_isSome (b : Block) (w : Var) (nm : String) (hw : w.name ≠ nm)
    (h : (b.findVar nm).isSome = true) :
    ((b.setVar w).findVar nm).isSome = true := by
  unfold Block.findVar at h
  unfold Block.setVar Block.findVar
  by_cases hany : b.vars.any (fun x => x.name == w.name)
  · rw [if_pos hany]
    exact find?_map_replace_isSome w nm hw b.vars h
  · rw [if_neg hany]
    show ((b.vars ++ [w]).find? (fun x => x.name == nm)).isSome = true
    rw [List.find?_append]
    cases hf : b.vars.find? (fun x => x.name == nm) with
    | none => rw [hf] at h; cases h
    | some u => simp

/-! ### Scan correctness -/

/-- The scan loop, started at `k` at or before the first index `i` passing
its neighbour test, returns the tuple built at `i`. -/
theorem scanGo_correct (ops : List Op) (i : Nat) (hmatch : codeMatchAt ops i) :
    ∀ (rest : List Op) (k : Nat), rest = ops.drop k → k ≤ i →
      (∀ j, k ≤ j → j < i → ¬ codeMatchAt ops j) →
      scanPrefetchGo ops rest k = .ok (some (mkTupleAt ops i)) := by
  have hi : i < ops.length := by
    obtain ⟨o, ho, _⟩ := hmatch.1
    exact List.get?_eq_some.mp ho |>.1
  intro rest
  induction rest generalizing i with
  | nil =>
    intro k hdrop hki _
    exfalso
    have : ops.length ≤ k := List.drop_eq_nil_iff.mp hdrop.symm
    omega
  | cons curOp rest' ih =>
    intro k hdrop hki hnone
    have hget : ops.get? k = some curOp := by
      rw [List.get?_eq_getElem?, ← List.head?_drop, ← hdrop]
      rfl
    have hrest' : rest' = ops.drop (k + 1) := by
      have ht : (ops.drop k).tail = ops.drop (k + 1) := by
        rw [List.tail_drop]
      rw [← hdrop] at ht
      simpa using ht
    by_cases hk : k = i
    · subst hk
      obtain ⟨o1, ho1, ht1⟩ := hmatch.1
      obtain ⟨o2, ho2, ht2⟩ := hmatch.2.1
      obtain ⟨o3, ho3, ht3⟩ := hmatch.2.2
      rw [hget] at ho1
      injection ho1 with ho1
      subst ho1
      have hc1 : (curOp.type == "prefetch") = true := by simp [ht1]
      have hc2 : (o2.type == "split_ids") = true := by simp [ht2]
      have hc3 : (o3.type == "merge_ids") = true := by simp [ht3]
      have hget2 : ops[k]? = some curOp := by
        rw [← List.get?_eq_getElem?]
        exact hget
      simp only [scanPrefetchGo, hc1, ho2, hc2, ho3, hc3, if_true]
      simp [mkTupleAt, opAt, ho2, ho3, pyGet_natCast, hget, hget2]
    · have hklt : k < i := by omega
      have hrec := ih i hmatch hi (k + 1) hrest' (by omega)
        (fun j hj1 hj2 => hnone j (by omega) hj2)
      cases hpf : curOp.type == "prefetch" with
      | false =>
        simp only [scanPrefetchGo, hpf, Bool.false_eq_true, if_false]
        exact hrec
      | true =>
        cases hx1 : pyGet ops ((k : Int) - 1) with
        | none =>
          simp only [scanPrefetchGo, hpf, if_true, hx1]
          exact hrec
        | some prevOp =>
          cases hsp : prevOp.type == "split_ids" with
          | false =>
            simp only [scanPrefetchGo, hpf, if_true, hx1, hsp, Bool.false_eq_true,
              if_false]
            exact hrec
          | true =>
            have hnx : ∃ nextOp, ops.get? (k + 1) = some nextOp := by
              cases hv : ops.get? (k + 1) with
              | none => exact absurd (List.get?_eq_none.mp hv) (by omega)
              | some o => exact ⟨o, rfl⟩
            obtain ⟨nextOp, hnx⟩ := hnx
            have hx2 : pyGet ops ((k : Int) + 1) = some nextOp := by
              rw [show ((k : Int) + 1) = ((k + 1 : Nat) : Int) from by omega,
                pyGet_natCast]
              exact hnx
            cases hmg : nextOp.type == "merge_ids" with
            | false =>
              simp only [scanPrefetchGo, hpf, if_true, hx1, hsp, hx2, hmg,
                Bool.false_eq_true, if_false]
              exact hrec
            | true =>
              exfalso
              apply hnone k le_rfl hklt
              exact ⟨⟨curOp, hget, by simpa using hpf⟩,
                     ⟨prevOp, hx1, by simpa using hsp⟩,
                     ⟨nextOp, hx2, by simpa using hmg⟩⟩

/-- The scan returns the tuple built at the first index passing its
neighbour test. -/
theorem scanPrefetch_correct (ops : List Op) (i : Nat)
    (hmatch : codeMatchAt ops i) (hfirst : ∀ j, j < i → ¬ codeMatchAt ops j) :
    scanPrefetch ops = .ok (some (mkTupleAt ops i)) :=
  scanGo_correct ops i hmatch ops 0 rfl (by omega) (fun j _ hj => hfirst j hj)

/-- When some index passes the neighbour test, the scan succeeds with the
tuple of the first such index. -/
theorem scanPrefetch_of_exists (ops : List Op) (h : ∃ i, codeMatchAt ops i) :
    ∃ i, codeMatchAt ops i ∧ (∀ j, j < i → ¬ codeMatchAt ops j) ∧
      scanPrefetch ops = .ok (some (mkTupleAt ops i)) :=
  ⟨Nat.find h, Nat.find_spec h, fun _ hj => Nat.find_min h hj,
   scanPrefetch_correct ops (Nat.find h) (Nat.find_spec h)
     (fun _ hj => Nat.find_min h hj)⟩

/-- A genuine consecutive triple passes the scan's neighbour test. -/
theorem codeMatch_of_triple (ops : List Op) (i : Nat)
    (h : consecutiveTripleAt ops i) : codeMatchAt ops i := by
  obtain ⟨h1, hs, hp, hm⟩ := h
  refine ⟨?_, ?_, ?_⟩
  · rw [List.get?_map] at hp
    cases ho : ops.get? i with
    | none => rw [ho] at hp; cases hp
    | some o =>
      rw [ho] at hp
      exact ⟨o, rfl, by simpa using hp⟩
  · have hcast : ((i : Int) - 1) = ((i - 1 : Nat) : Int) := by omega
    rw [hcast, pyGet_natCast]
    rw [List.get?_map] at hs
    cases ho : ops.get? (i - 1) with
    | none => rw [ho] at hs; cases hs
    | some o =>
      rw [ho] at hs
      exact ⟨o, rfl, by simpa using hs⟩
  · have hcast : ((i : Int) + 1) = ((i + 1 : Nat) : Int) := by omega
    rw [hcast, pyGet_natCast]
    rw [List.get?_map] at hm
    cases ho : ops.get? (i + 1) with
    | none => rw [ho] at hm; cases hm
    | some o =>
      rw [ho] at hm
      exact ⟨o, rfl, by simpa using hm⟩

/-! ### Removal and insertion loops -/

/-- Python `del` at an in-range non-negative index. -/
theorem pyDelete_natCast {α : Type} (l : List α) (k : Nat) (h : k < l.length) :
    pyDelete l (k : Int) = some (l.eraseIdx k) := by
  simp only [pyDelete, pyIdx]
  have h0 : ¬ ((k : Int) < 0) := by omega
  simp only [h0, if_false]
  have hc : 0 ≤ (k : Int) ∧ (k : Int) < (l.length : Int) := by omega
  rw [if_pos hc]
  simp

/-- Python `del` at index `-1` removes the last element. -/
theorem pyDelete_neg_one {α : Type} (l : List α) (h : 0 < l.length) :
    pyDelete l (-1) = some (l.eraseIdx (l.length - 1)) := by
  simp only [pyDelete, pyIdx]
  have h0 : (-1 : Int) < 0 := by omega
  simp only [h0, if_true]
  have hc : 0 ≤ (l.length : Int) + (-1) ∧ (l.length : Int) + (-1) < (l.length : Int) := by
    omega
  rw [if_pos hc]
  have ht : ((l.length : Int) + (-1)).toNat = l.length - 1 := by omega
  simp only [Option.map, ht]

/-- The removal loop at a matched index `j ≥ 1` removes exactly the three
operators `j - 1`, `j`, `j + 1`. -/
theorem removeOpsLoop_three_pos (ops : List Op) (j : Nat) (h1 : 1 ≤ j)
    (h2 : j + 1 < ops.length) :
    removeOpsLoop ops (pyRangeDown (((j : Int) - 1) + 2) (((j : Int) - 1) - 1))
      = (none, ops.take (j - 1) ++ ops.drop (j + 2)) := by
  rw [pyRangeDown_three]
  have e1 : ((j : Int) - 1) + 2 = ((j + 1 : Nat) : Int) := by omega
  have e2 : ((j : Int) - 1) + 1 = ((j : Nat) : Int) := by omega
  have e3 : ((j : Int) - 1) = ((j - 1 : Nat) : Int) := by omega
  rw [e1, e2, e3]
  have hd1 := pyDelete_natCast ops (j + 1) h2
  have hl1 : (ops.eraseIdx (j + 1)).length = ops.length - 1 := by
    rw [List.length_eraseIdx_of_lt h2]
  have hd2 := pyDelete_natCast (ops.eraseIdx (j + 1)) j (by omega)
  have hl2 : ((ops.eraseIdx (j + 1)).eraseIdx j).length = ops.length - 2 := by
    rw [List.length_eraseIdx_of_lt (by omega), hl1]
    omega
  have hd3 := pyDelete_natCast ((ops.eraseIdx (j + 1)).eraseIdx j) (j - 1) (by omega)
  unfold removeOpsLoop
  rw [hd1]
  unfold removeOpsLoop
  rw [hd2]
  unfold removeOpsLoop
  rw [hd3]
  unfold removeOpsLoop
  have he : ((ops.eraseIdx (j + 1)).eraseIdx j).eraseIdx (j - 1)
      = ops.take (j - 1) ++ ops.drop (j + 2) := by
    have := erase3 (j - 1) ops (by omega)
    rw [show j - 1 + 2 = j + 1 from by omega, show j - 1 + 1 = j from by omega,
      show j - 1 + 3 = j + 2 from by omega] at this
    exact this
  rw [he]

/-- The removal loop at a spurious index-0 match (removal indices 1, 0 and
`-1`) succeeds on any list of length at least 3. -/
theorem removeOpsLoop_three_zero (ops : List Op) (h3 : 3 ≤ ops.length) :
    ∃ res, removeOpsLoop ops
        (pyRangeDown (((0 : Int) - 1) + 2) (((0 : Int) - 1) - 1)) = (none, res) := by
  rw [pyRangeDown_three]
  have e1 : ((0 : Int) - 1) + 2 = ((1 : Nat) : Int) := by omega
  have e2 : ((0 : Int) - 1) + 1 = ((0 : Nat) : Int) := by omega
  rw [e1, e2]
  have hd1 := pyDelete_natCast ops 1 (by omega)
  have hl1 : (ops.eraseIdx 1).length = ops.length - 1 := by
    rw [List.length_eraseIdx_of_lt (by omega)]
  have hd2 := pyDelete_natCast (ops.eraseIdx 1) 0 (by omega)
  have hl2 : ((ops.eraseIdx 1).eraseIdx 0).length = ops.length - 2 := by
    rw [List.length_eraseIdx_of_lt (by omega), hl1]
    omega
  have hd3 := pyDelete_neg_one ((ops.eraseIdx 1).eraseIdx 0) (by omega)
  refine ⟨((ops.eraseIdx 1).eraseIdx 0).eraseIdx
    (((ops.eraseIdx 1).eraseIdx 0).length - 1), ?_⟩
  unfold removeOpsLoop
  rw [hd1]
  unfold removeOpsLoop
  rw [hd2]
  unfold removeOpsLoop
  rw [show ((0 : Int) - 1) = (-1 : Int) from by omega, hd3]
  unfold removeOpsLoop
  rfl

/-- Python `insert` at the length of the left part lands between parts. -/
theorem pyInsert_at_append {α : Type} (pre post : List α) (x : α) :
    pyInsertClamp (pre ++ post) ((pre.length : Nat) : Int) x = pre ++ x :: post := by
  simp only [pyInsertClamp]
  have h0 : ¬ ((pre.length : Int) < 0) := by omega
  simp only [h0, if_false]
  have hmin : min ((pre.length : Nat) : Int) (((pre ++ post).length : Nat) : Int)
      = ((pre.length : Nat) : Int) := by
    simp only [List.length_append]
    omega
  rw [hmin]
  rw [Int.toNat_ofNat]
  exact insertIdx_append_self pre post x

/-- A completed insertion loop inserts one `lookup_sparse_table` operator
per pair, in reverse pair order, at the split position. -/
theorem insertLoop_none_spec (vars : List Var) (emb : String) :
    ∀ (pairs : List (String × String)) (pre cur res : List Op),
      insertLoop vars emb ((pre.length : Nat) : Int) (pre ++ cur) pairs = (none, res) →
      res = pre ++ (pairs.map
        (fun pr => mkLookupSparseTableOp pr.1 emb pr.2)).reverse ++ cur := by
  intro pairs
  induction pairs with
  | nil =>
    intro pre cur res h
    unfold insertLoop at h
    injection h with _ h2
    rw [← h2]
    simp
  | cons pr rest ih =>
    intro pre cur res h
    cases hf1 : vars.find? (fun v => v.name == pr.1) with
    | none =>
      simp only [insertLoop, hf1] at h
      simp at h
    | some idsVar =>
      cases hf2 : vars.find? (fun v => v.name == pr.2) with
      | none =>
        simp only [insertLoop, hf1, hf2] at h
        simp at h
      | some outVar =>
        simp only [insertLoop, hf1, hf2, pyInsert_at_append] at h
        have hn1 : idsVar.name = pr.1 := by simpa using List.find?_some hf1
        have hn2 : outVar.name = pr.2 := by simpa using List.find?_some hf2
        have hres := ih pre (mkLookupSparseTableOp idsVar.name emb outVar.name :: cur) res h
        rw [hn1, hn2] at hres
        rw [hres]
        simp

/-- Whatever happens inside the insertion loop, the list it produces is the
original with some `lookup_sparse_table` operators inserted at the split
position. -/
theorem insertLoop_state (vars : List Var) (emb : String) :
    ∀ (pairs : List (String × String)) (pre cur : List Op),
      ∃ mid,
        (insertLoop vars emb ((pre.length : Nat) : Int) (pre ++ cur) pairs).2
          = pre ++ mid ++ cur ∧
        ∀ o ∈ mid, o.type = "lookup_sparse_table" := by
  intro pairs
  induction pairs with
  | nil =>
    intro pre cur
    refine ⟨[], ?_, by simp⟩
    unfold insertLoop
    simp
  | cons pr rest ih =>
    intro pre cur
    cases hf1 : vars.find? (fun v => v.name == pr.1) with
    | none =>
      refine ⟨[], ?_, by simp⟩
      simp only [insertLoop, hf1]
      simp
    | some idsVar =>
      cases hf2 : vars.find? (fun v => v.name == pr.2) with
      | none =>
        refine ⟨[], ?_, by simp⟩
        simp only [insertLoop, hf1, hf2]
        simp
      | some outVar =>
        obtain ⟨mid, hmid, hty⟩ :=
          ih pre (mkLookupSparseTableOp idsVar.name emb outVar.name :: cur)
        refine ⟨mid ++ [mkLookupSparseTableOp idsVar.name emb outVar.name], ?_, ?_⟩
        · simp only [insertLoop, hf1, hf2, pyInsert_at_append]
          rw [hmid]
          simp
        · intro o ho
          rcases List.mem_append.mp ho with ho | ho
          · exact hty o ho
          · simp only [List.mem_singleton] at ho
            subst ho
            rfl

/-- `insertLoop_none_spec` with the split index given by an equation. -/
theorem insertLoop_none_spec2 (vars : List Var) (emb : String)
    (pairs : List (String × String)) (pre cur res : List Op) (si : Int)
    (hsi : si = ((pre.length : Nat) : Int))
    (h : insertLoop vars emb si (pre ++ cur) pairs = (none, res)) :
    res = pre ++ (pairs.map
      (fun pr => mkLookupSparseTableOp pr.1 emb pr.2)).reverse ++ cur := by
  subst hsi
  exact insertLoop_none_spec vars emb pairs pre cur res h

/-- `insertLoop_state` with the split index given by an equation. -/
theorem insertLoop_state2 (vars : List Var) (emb : String)
    (pairs : List (String × String)) (pre cur : List Op) (si : Int)
    (hsi : si = ((pre.length : Nat) : Int)) :
    ∃ mid,
      (insertLoop vars emb si (pre ++ cur) pairs).2 = pre ++ mid ++ cur ∧
      ∀ o ∈ mid, o.type = "lookup_sparse_table" := by
  subst hsi
  exact insertLoop_state vars emb pairs pre cur

/-- The insertion loop succeeds when every referenced variable resolves. -/
theorem insertLoop_success (vars : List Var) (emb : String) :
    ∀ (pairs : List (String × String)) (ops : List Op) (si : Int),
      (∀ pr ∈ pairs, (vars.find? (fun v => v.name == pr.1)).isSome = true ∧
                     (vars.find? (fun v => v.name == pr.2)).isSome = true) →
      (insertLoop vars emb si ops pairs).1 = none := by
  intro pairs
  induction pairs with
  | nil =>
    intro ops si _
    rfl
  | cons pr rest ih =>
    intro ops si h
    have hpr := h pr (by simp)
    obtain ⟨idsVar, hf1⟩ := Option.isSome_iff_exists.mp hpr.1
    obtain ⟨outVar, hf2⟩ := Option.isSome_iff_exists.mp hpr.2
    unfold insertLoop
    rw [hf1, hf2]
    exact ih _ si (fun q hq => h q (by simp [hq]))

/-- A dict assignment never changes the operator list. -/
theorem setVar_ops (b : Block) (w : Var) : (b.setVar w).ops = b.ops := by
  unfold Block.setVar
  split_ifs <;> rfl

/-- The `.origin` rename never collides with the original name. -/
theorem append_origin_ne (s : String) : s ++ ".origin" ≠ s := by
  intro h
  have hlen := congrArg String.length h
  have h7 : (".origin" : String).length = 7 := rfl
  simp only [String.length_append] at hlen
  omega

/-- After the conversion's renaming steps, the table name resolves to the
fresh `SELECTED_ROWS` parameter variable. -/
theorem convertBlock2_findVar_emb (blk : Block) (emb : String) (v : Var) :
    (convertBlock2 blk emb v).findVar emb
      = some ⟨emb, v.shape, v.dtype, .SELECTED_ROWS, true⟩ :=
  setVar_findVar_self _ _

/-- After the conversion's renaming steps, `<emb>.origin` resolves to the
renamed original variable. -/
theorem convertBlock2_findVar_origin (blk : Block) (emb : String) (v : Var) :
    (convertBlock2 blk emb v).findVar (emb ++ ".origin")
      = some { v with name := emb ++ ".origin" } := by
  unfold convertBlock2
  have hany : ((blk.delVar emb).setVar { v with name := emb ++ ".origin" }).vars.any
      (fun x => x.name == emb) = false := by
    apply setVar_any_false
    · exact append_origin_ne emb
    · exact delVar_any_false blk emb
  have happend : (((blk.delVar emb).setVar { v with name := emb ++ ".origin" }).setVar
      ⟨emb, v.shape, v.dtype, .SELECTED_ROWS, true⟩).vars
      = ((blk.delVar emb).setVar { v with name := emb ++ ".origin" }).vars
        ++ [⟨emb, v.shape, v.dtype, .SELECTED_ROWS, true⟩] :=
    setVar_append _ _ hany
  have hleft : ((blk.delVar emb).setVar { v with name := emb ++ ".origin" }).findVar
      (emb ++ ".origin") = some { v with name := emb ++ ".origin" } :=
    setVar_findVar_self _ _
  unfold Block.findVar at hleft ⊢
  rw [happend, List.find?_append, hleft]
  rfl

/-- After the conversion's renaming steps, any name that resolved in the
original block (or is the table name itself) still resolves. -/
theorem convertBlock2_findVar_isSome (blk : Block) (emb : String) (v : Var)
    (nm : String) (h : (blk.findVar nm).isSome = true ∨ nm = emb) :
    ((convertBlock2 blk emb v).findVar nm).isSome = true := by
  by_cases hemb : nm = emb
  · subst hemb
    rw [convertBlock2_findVar_emb]
    rfl
  · rcases h with h | h
    · by_cases horig : nm = emb ++ ".origin"
      · subst horig
        rw [convertBlock2_findVar_origin]
        rfl
      · unfold convertBlock2
        apply setVar_findVar_isSome _ _ _ (fun hc => hemb hc.symm)
        apply setVar_findVar_isSome _ _ _ (fun hc => horig (by rw [← hc]))
        unfold Block.findVar at h
        unfold Block.findVar Block.delVar
        exact find?_filter_ne nm emb hemb blk.vars h
    · exact absurd h hemb

/-- With a truthy table attribute naming an existing variable, the
conversion reduces to its scan / removal / insertion phases over the block
state `convertBlock2`. -/
theorem convert_after_scan (p : Program) (emb : String) (v : Var)
    (h1 : p.distributedLookupTable = some emb)
    (h2 : (emb == "") = false)
    (h3 : p.globalBlock.findVar emb = some v) :
    convert_dist_to_sparse_program p =
      (match scanPrefetch p.globalBlock.ops with
       | .error e =>
         ⟨some e, { p with globalBlock := convertBlock2 p.globalBlock emb v }, none⟩
       | .ok none =>
         ⟨some (.typeError "NoneType object is not subscriptable"),
          { p with globalBlock := convertBlock2 p.globalBlock emb v }, none⟩
       | .ok (some (si, insNames, outNames, _)) =>
         match removeOpsLoop p.globalBlock.ops (pyRangeDown (si + 2) (si - 1)) with
         | (some e, ops1) =>
           ⟨some e,
            { p with globalBlock := { convertBlock2 p.globalBlock emb v with ops := ops1 } },
            none⟩
         | (none, ops1) =>
           match insertLoop (convertBlock2 p.globalBlock emb v).vars emb si ops1
               (insNames.zip outNames) with
           | (e?, ops2) =>
             let pF := { p with
               globalBlock := { convertBlock2 p.globalBlock emb v with ops := ops2 } }
             ⟨e?, pF, if e?.isNone then some pF else none⟩) := by
  unfold convert_dist_to_sparse_program
  have horig : ((p.globalBlock.delVar emb).setVar
      { v with name := emb ++ ".origin" }).findVar (emb ++ ".origin")
      = some { v with name := emb ++ ".origin" } := setVar_findVar_self _ _
  simp only [h1]
  simp only [h2, Bool.false_eq_true, if_false]
  simp only [h3]
  simp only [horig]
  have hops : (((p.globalBlock.delVar emb).setVar
      { v with name := emb ++ ".origin" }).setVar
      ⟨emb, v.shape, v.dtype, .SELECTED_ROWS, true⟩).ops = p.globalBlock.ops := by
    rw [setVar_ops, setVar_ops]
    rfl
  simp only [hops]
  rfl

/-- Shifted-range map: peel the first index off an `(n + 1)`-element map. -/
theorem range_succ_shift {α : Type} (g : Nat → α) (n k : Nat) :
    (List.range (n + 1)).map (fun j => g (k + j))
      = g k :: (List.range n).map (fun j => g (k + 1 + j)) := by
  rw [List.range_succ_eq_map, List.map_cons, List.map_map]
  refine congrArg₂ _ (by simp) ?_
  refine List.map_congr_left (fun a _ => ?_)
  show g (k + (a + 1)) = g (k + 1 + a)
  exact congrArg g (by omega)

/-- Closed form of the shard-loading loop: starting from a block whose
variables avoid every upcoming shard name, it appends one shard variable
and one shard `load` operator per file, and collects the shard variables. -/
theorem buildShardLoads_spec (td : String) (ev : Var) :
    ∀ (files : List String) (k : Nat) (blk : Block) (sums : List Var),
      (∀ i, k ≤ i → blk.vars.any (fun w => w.name == shardName ev.name i) = false) →
      buildShardLoads td ev (List.enumFrom k files) blk sums =
        ({ vars := blk.vars ++ (List.range files.length).map (fun j => shardVar ev (k + j)),
           ops := blk.ops ++ (List.range files.length).map (fun j => shardLoadOp td ev (k + j)) },
         sums ++ (List.range files.length).map (fun j => shardVar ev (k + j))) := by
  intro files
  induction files with
  | nil =>
    intro k blk sums _
    simp [List.enumFrom, buildShardLoads]
  | cons f fs ih =>
    intro k blk sums h
    have hk : blk.vars.any (fun w => w.name == shardName ev.name k) = false := h k le_rfl
    have hstep : buildShardLoads td ev (List.enumFrom k (f :: fs)) blk sums
        = buildShardLoads td ev (List.enumFrom (k + 1) fs)
            ((blk.setVar (shardVar ev k)).appendOp (shardLoadOp td ev k))
            (sums ++ [shardVar ev k]) := rfl
    have hset : blk.setVar (shardVar ev k)
        = { blk with vars := blk.vars ++ [shardVar ev k] } := by
      unfold Block.setVar
      rw [if_neg]
      intro hc
      rw [show (shardVar ev k).name = shardName ev.name k from rfl] at hc
      simp [hk] at hc
    have h' : ∀ i, k + 1 ≤ i →
        ((blk.setVar (shardVar ev k)).appendOp (shardLoadOp td ev k)).vars.any
          (fun w => w.name == shardName ev.name i) = false := by
      intro i hi
      rw [hset]
      show (blk.vars ++ [shardVar ev k]).any (fun w => w.name == shardName ev.name i) = false
      rw [List.any_append]
      have hbase := h i (by omega)
      simp only [hbase, Bool.false_or, List.any_cons, List.any_nil, Bool.or_false]
      rw [show (shardVar ev k).name = shardName ev.name k from rfl]
      rw [beq_eq_false_iff_ne]
      intro heq
      exact absurd (shardName_injective ev.name heq) (by omega)
    rw [hstep, ih (k + 1) _ _ h', hset]
    simp only [Block.appendOp, List.length_cons, range_succ_shift, List.append_assoc,
      List.cons_append, List.nil_append, List.singleton_append]

/-- On a valid call, the shared body of `load_persistables_for_inference`
first emits the checkpoint loads and then runs the closed-form convert
program, returning the program object. -/
theorem inferenceBody_eq (fs : FileSystem) (dirname tbl : String)
    (p : Program) (v : Var) (entries : List String)
    (h1 : fs.isDir dirname = true)
    (h2 : p.globalBlock.findVar tbl = some v)
    (h3 : fs.listdir (pyJoin dirname lookup_table_dir) = some entries) :
    inferenceBody fs dirname p tbl =
      ⟨none, load_persistable_vars dirname p [tbl]
              ++ [Event.runProgram (inferenceConvertProgram dirname tbl v entries)],
       some p⟩ := by
  have hfresh : ∀ i, 0 ≤ i →
      (Block.setVar ⟨[], []⟩ ⟨v.name, v.shape, v.dtype, .SELECTED_ROWS, true⟩).vars.any
        (fun w => w.name == shardName v.name i) = false := by
    intro i _
    show [(⟨v.name, v.shape, v.dtype, .SELECTED_ROWS, true⟩ : Var)].any
      (fun w => w.name == shardName v.name i) = false
    simp only [List.any_cons, List.any_nil, Bool.or_false]
    rw [beq_eq_false_iff_ne]
    exact fun heq => shardName_ne_base v.name i heq.symm
  have hb := buildShardLoads_spec (pyJoin dirname lookup_table_dir)
    ⟨v.name, v.shape, v.dtype, .SELECTED_ROWS, true⟩
    (entries.filter (fun e => strContains e tbl)) 0
    (Block.setVar ⟨[], []⟩ ⟨v.name, v.shape, v.dtype, .SELECTED_ROWS, true⟩) [] hfresh
  simp only [inferenceBody, h1, h2, h3]
  rw [show (entries.filter (fun e => strContains e tbl)).enum
      = List.enumFrom 0 (entries.filter (fun e => strContains e tbl)) from rfl]
  rw [hb]
  simp only [inferenceConvertProgram, Block.appendOp, Block.setVar, List.any_nil,
    Bool.false_eq_true, if_false, List.nil_append, List.map_map, Nat.zero_add,
    List.append_assoc, List.singleton_append, List.cons_append]
  simp [Function.comp, shardVar]

/-- A `filterMap` that never drops an element is a `map`. -/
theorem filterMap_some_eq_map {α β : Type} (g : α → β) (f : α → Option β)
    (hf : ∀ a, f a = some (g a)) : ∀ l : List α, l.filterMap f = l.map g := by
  intro l
  induction l with
  | nil => rfl
  | cons a t ih => simp [List.filterMap_cons, hf, ih]

/-- Once past the directory check, the inference body never raises a
`ValueError` (its possible failures are framework/OS failures). -/
theorem inferenceBody_no_valueError (fs : FileSystem) (dirname tbl : String)
    (p : Program) (h1 : fs.isDir dirname = true) :
    ∀ m, (inferenceBody fs dirname p tbl).err ≠ some (.valueError m) := by
  intro m
  simp only [inferenceBody, h1]
  cases p.globalBlock.findVar tbl with
  | none => simp
  | some v =>
    cases fs.listdir (pyJoin dirname lookup_table_dir) with
    | none => simp
    | some entries => simp

/-- Excluding exactly the lookup-table variable: the predicate with
exclusion list `[tbl]` accepts a variable iff the predicate with an empty
exclusion list accepts it and its name is not `tbl`. -/
theorem is_valid_singleton (tbl : String) (w : Var) :
    is_valid [tbl] w = (is_valid [] w && !(w.name == tbl)) := by
  simp only [is_valid]
  split_ifs with h1 h2 h3 h4 h5 h6 <;> simp_all

/-- C4: on a valid call, `load_persistables_for_increment` first loads from
`dirname` every checkpoint-persistable variable of the program except the
named lookup-table variable, then runs a freshly built one-operator program
whose single `load` operator outputs the lookup-table variable and carries
`file_path = lookup_table_var_path`; the function returns `None`. -/
theorem C4_increment_order (fs : FileSystem) (dirname tbl path : String)
    (p : Program) (v : Var)
    (h1 : fs.isDir dirname = true)
    (h2 : fs.pathExists path = true)
    (h3 : p.globalBlock.findVar tbl = some v) :
    load_persistables_for_increment fs dirname (.someProg p) tbl path =
      ⟨none,
       ((p.globalBlock.vars.filter
           (fun w => is_valid [] w && !(w.name == tbl))).map
         (fun w => Event.loadVar dirname w.name))
         ++ [Event.runProgram (incrementLoadProgram tbl path)],
       none⟩ ∧
    (incrementLoadProgram tbl path).globalBlock.ops =
      [{ type := "load", inputs := [], outputs := [("Out", [tbl])],
         attrs := [("file_path", .s path)] }] := by
  have hfilter : p.globalBlock.vars.filter (is_valid [tbl])
      = p.globalBlock.vars.filter (fun w => is_valid [] w && !(w.name == tbl)) :=
    List.filter_congr (fun w _ => is_valid_singleton tbl w)
  have hv : v.name = tbl := by
    have := List.find?_some h3
    simpa using this
  constructor
  · simp only [load_persistables_for_increment, h1, h2, h3, load_persistable_vars,
      io_load_vars, hfilter, hv]
    simp
  · rfl

/-- C1 counterexample: a program whose `_distributed_lookup_table` names an
existing variable but whose global block holds no prefetch structure; the
call raises a `TypeError` (Python subscripts the `None` returned by
`__get_prefetch_op_tuples`) instead of returning the program. -/
theorem C1_counterexample :
    cexProgC1.distributedLookupTable = some "emb" ∧
    cexProgC1.globalBlock.findVar "emb"
      = some ⟨"emb", [10, 8], "float32", VarType.LOD_TENSOR, true⟩ ∧
    (convert_dist_to_sparse_program cexProgC1).ret = none ∧
    (convert_dist_to_sparse_program cexProgC1).err
      = some (.typeError "NoneType object is not subscriptable") :=
  ⟨rfl, rfl, rfl, rfl⟩

/-- C1 amended: whenever the attribute names an existing variable and the
conversion runs to completion (no exception), the table variable has been
renamed to `<name>.origin`, a fresh persistable `SELECTED_ROWS` variable
with the original name, shape and dtype has been created, and the call
returns the mutated program object itself. -/
theorem C1_amended_conversion (p : Program) (emb : String) (v : Var)
    (h1 : p.distributedLookupTable = some emb)
    (h2 : emb ≠ "")
    (h3 : p.globalBlock.findVar emb = some v)
    (herr : (convert_dist_to_sparse_program p).err = none) :
    (convert_dist_to_sparse_program p).ret
        = some ((convert_dist_to_sparse_program p).prog) ∧
    (convert_dist_to_sparse_program p).prog.globalBlock.findVar (emb ++ ".origin")
        = some { v with name := emb ++ ".origin" } ∧
    (convert_dist_to_sparse_program p).prog.globalBlock.findVar emb
        = some ⟨emb, v.shape, v.dtype, .SELECTED_ROWS, true⟩ := by
  have h2' : (emb == "") = false := beq_eq_false_iff_ne.mpr h2
  rw [convert_after_scan p emb v h1 h2' h3] at herr ⊢
  cases hscan : scanPrefetch p.globalBlock.ops with
  | error e =>
    simp only [hscan] at herr
    simp at herr
  | ok o =>
    cases o with
    | none =>
      simp only [hscan] at herr
      simp at herr
    | some t =>
      obtain ⟨si, ins, outs, dels⟩ := t
      simp only [hscan] at herr ⊢
      rcases hrem : removeOpsLoop p.globalBlock.ops (pyRangeDown (si + 2) (si - 1))
        with ⟨e?, ops1⟩
      simp only [hrem] at herr ⊢
      cases e? with
      | some e => simp at herr
      | none =>
        rcases hins : insertLoop (convertBlock2 p.globalBlock emb v).vars emb si ops1
            (ins.zip outs) with ⟨e2?, ops2⟩
        simp only [hins] at herr ⊢
        cases e2? with
        | some e2 => simp at herr
        | none =>
          refine ⟨rfl, ?_, ?_⟩
          · exact convertBlock2_findVar_origin p.globalBlock emb v
          · exact convertBlock2_findVar_emb p.globalBlock emb v

/-- C2 counterexample: in `cexProgC2` the first consecutive
`split_ids; prefetch; merge_ids` sequence has its `prefetch` at index 3, so
the claim says operators 2, 3, 4 are removed and all others kept; but the
scan fires already at index 0 via Python negative indexing
(`op_types[-1] == "split_ids"`), and the conversion instead removes
operators 1, 0 and the last one — keeping exactly operators 2, 3, 4. -/
theorem C2_counterexample :
    consecutiveTripleAt cexProgC2.globalBlock.ops 3 ∧
    (∀ j < 3, ¬ consecutiveTripleAt cexProgC2.globalBlock.ops j) ∧
    (convert_dist_to_sparse_program cexProgC2).err = none ∧
    ((convert_dist_to_sparse_program cexProgC2).prog.globalBlock.ops.map Op.type
      = ["split_ids", "prefetch", "lookup_sparse_table", "merge_ids"]) ∧
    tagOp "split_ids" "s2" [] []
      ∈ (convert_dist_to_sparse_program cexProgC2).prog.globalBlock.ops ∧
    tagOp "prefetch" "p0" [] []
      ∉ (convert_dist_to_sparse_program cexProgC2).prog.globalBlock.ops := by
  refine ⟨by decide, by decide, rfl, rfl, by decide, by decide⟩

/-- C6 counterexample: the directory scan of
`load_persistables_for_inference` discovers the shard file `emb.block0`,
but the appended `load` operator reads `emb_0` instead: the set of file
paths read is not the set of discovered shard files. -/
theorem C6_counterexample :
    ∃ cp, (load_persistables_for_inference fsC6 envC "d" (.someProg pEmb) "emb").events
        = [Event.loadVar "d" "fc_w", Event.runProgram cp] ∧
      discoveredShardFiles fsC6 "d" "emb" = ["d/__lookup_table__/emb.block0"] ∧
      loadFilePaths cp.globalBlock = ["d/__lookup_table__/emb_0"] ∧
      "d/__lookup_table__/emb.block0" ∉ loadFilePaths cp.globalBlock :=
  ⟨cpC6, rfl, rfl, rfl, by decide⟩

/-- C2 amended: when the first loop index passing the scan's neighbour test
(under Python indexing) is the genuine triple's `prefetch` index `i ≥ 1`,
the conversion removes exactly the operators at `i - 1`, `i`, `i + 1`
(the loop deletes them in descending index order) and keeps every other
pre-existing operator in its original relative order, with only
`lookup_sparse_table` operators inserted at the split position. -/
theorem C2_amended_removal (p : Program) (emb : String) (v : Var) (i : Nat)
    (h1 : p.distributedLookupTable = some emb)
    (h2 : emb ≠ "")
    (h3 : p.globalBlock.findVar emb = some v)
    (htriple : consecutiveTripleAt p.globalBlock.ops i)
    (hfirst : ∀ j, j < i → ¬ codeMatchAt p.globalBlock.ops j) :
    ∃ inserted,
      (convert_dist_to_sparse_program p).prog.globalBlock.ops
        = p.globalBlock.ops.take (i - 1) ++ inserted
            ++ p.globalBlock.ops.drop (i + 2) ∧
      ∀ o ∈ inserted, o.type = "lookup_sparse_table" := by
  have h2' : (emb == "") = false := beq_eq_false_iff_ne.mpr h2
  have hmatch := codeMatch_of_triple _ _ htriple
  have hi1 : 1 ≤ i := htriple.1
  have hscan := scanPrefetch_correct _ i hmatch hfirst
  have hi2 : i + 1 < p.globalBlock.ops.length := by
    obtain ⟨o3, ho3, _⟩ := hmatch.2.2
    rw [show ((i : Int) + 1) = ((i + 1 : Nat) : Int) from by omega] at ho3
    exact pyGet_some_lt ho3
  have hlen : (p.globalBlock.ops.take (i - 1)).length = i - 1 := by
    rw [List.length_take]
    omega
  have hcast : ((i : Int) - 1)
      = (((p.globalBlock.ops.take (i - 1)).length : Nat) : Int) := by
    rw [hlen]
    omega
  rw [convert_after_scan p emb v h1 h2' h3]
  simp only [hscan, mkTupleAt]
  rw [removeOpsLoop_three_pos p.globalBlock.ops i hi1 hi2]
  obtain ⟨mid, hmid, hty⟩ := insertLoop_state2 (convertBlock2 p.globalBlock emb v).vars emb
    (((opAt p.globalBlock.ops ((i : Int) - 1)).input "Ids").zip
      ((opAt p.globalBlock.ops ((i : Int) + 1)).output "Out"))
    (p.globalBlock.ops.take (i - 1)) (p.globalBlock.ops.drop (i + 2))
    ((i : Int) - 1) hcast
  refine ⟨mid, ?_, hty⟩
  rcases hins : insertLoop (convertBlock2 p.globalBlock emb v).vars emb ((i : Int) - 1)
      (p.globalBlock.ops.take (i - 1) ++ p.globalBlock.ops.drop (i + 2))
      (((opAt p.globalBlock.ops ((i : Int) - 1)).input "Ids").zip
        ((opAt p.globalBlock.ops ((i : Int) + 1)).output "Out"))
    with ⟨e?, ops2⟩
  rw [hins] at hmid
  simp only [hins]
  cases e? with
  | none => exact hmid
  | some e => exact hmid

/-- C3: when the scan matches the genuine triple at `i ≥ 1` and the
conversion completes, it inserts at the former `split_ids` position one
`lookup_sparse_table` operator per zipped (Ids-input, Out-output) pair —
with that pair as `Ids` and `Out`, the fresh table variable as `W`, and
attributes `is_distributed=False`, `is_sparse=True`, `grad_inplace=False`
as fixed by `mkLookupSparseTableOp`. -/
theorem C3_lookup_sparse_table_ops (p : Program) (emb : String) (v : Var) (i : Nat)
    (h1 : p.distributedLookupTable = some emb)
    (h2 : emb ≠ "")
    (h3 : p.globalBlock.findVar emb = some v)
    (htriple : consecutiveTripleAt p.globalBlock.ops i)
    (hfirst : ∀ j, j < i → ¬ codeMatchAt p.globalBlock.ops j)
    (herr : (convert_dist_to_sparse_program p).err = none) :
    (convert_dist_to_sparse_program p).prog.globalBlock.ops
      = p.globalBlock.ops.take (i - 1)
          ++ ((((opAt p.globalBlock.ops ((i : Int) - 1)).input "Ids").zip
                ((opAt p.globalBlock.ops ((i : Int) + 1)).output "Out")).map
              (fun pr => mkLookupSparseTableOp pr.1 emb pr.2)).reverse
          ++ p.globalBlock.ops.drop (i + 2) ∧
    ∀ pr ∈ ((opAt p.globalBlock.ops ((i : Int) - 1)).input "Ids").zip
        ((opAt p.globalBlock.ops ((i : Int) + 1)).output "Out"),
      mkLookupSparseTableOp pr.1 emb pr.2
        ∈ (convert_dist_to_sparse_program p).prog.globalBlock.ops := by
  have h2' : (emb == "") = false := beq_eq_false_iff_ne.mpr h2
  have hmatch := codeMatch_of_triple _ _ htriple
  have hi1 : 1 ≤ i := htriple.1
  have hscan := scanPrefetch_correct _ i hmatch hfirst
  have hi2 : i + 1 < p.globalBlock.ops.length := by
    obtain ⟨o3, ho3, _⟩ := hmatch.2.2
    rw [show ((i : Int) + 1) = ((i + 1 : Nat) : Int) from by omega] at ho3
    exact pyGet_some_lt ho3
  have hlen : (p.globalBlock.ops.take (i - 1)).length = i - 1 := by
    rw [List.length_take]
    omega
  have hcast : ((i : Int) - 1)
      = (((p.globalBlock.ops.take (i - 1)).length : Nat) : Int) := by
    rw [hlen]
    omega
  rw [convert_after_scan p emb v h1 h2' h3] at herr ⊢
  simp only [hscan, mkTupleAt] at herr ⊢
  rw [removeOpsLoop_three_pos p.globalBlock.ops i hi1 hi2] at herr ⊢
  rcases hins : insertLoop (convertBlock2 p.globalBlock emb v).vars emb ((i : Int) - 1)
      (p.globalBlock.ops.take (i - 1) ++ p.globalBlock.ops.drop (i + 2))
      (((opAt p.globalBlock.ops ((i : Int) - 1)).input "Ids").zip
        ((opAt p.globalBlock.ops ((i : Int) + 1)).output "Out"))
    with ⟨e?, ops2⟩
  simp only [hins] at herr ⊢
  cases e? with
  | some e => simp at herr
  | none =>
    have hspec := insertLoop_none_spec2 (convertBlock2 p.globalBlock emb v).vars emb
      (((opAt p.globalBlock.ops ((i : Int) - 1)).input "Ids").zip
        ((opAt p.globalBlock.ops ((i : Int) + 1)).output "Out"))
      (p.globalBlock.ops.take (i - 1)) (p.globalBlock.ops.drop (i + 2)) ops2
      ((i : Int) - 1) hcast hins
    constructor
    · exact hspec
    · intro pr hpr
      rw [hspec]
      apply List.mem_append.mpr
      left
      apply List.mem_append.mpr
      right
      apply List.mem_reverse.mpr
      exact List.mem_map.mpr ⟨pr, hpr, rfl⟩

/-- C10 amended: under a program with a distributed lookup table, a genuine
`split_ids; prefetch; merge_ids` triple, and globally resolvable `Ids`
inputs and `Out` outputs, `__get_prefetch_op_tuples` returns a non-`None`
tuple and the conversion completes and returns the program; without the
precondition the `None`-subscript and out-of-range branches are reachable
(witnessed by `cexProgC1` and `cexProgC10err`). -/
theorem C10_conversion_completes (p : Program) (emb : String) (v : Var)
    (h1 : p.distributedLookupTable = some emb)
    (h2 : emb ≠ "")
    (h3 : p.globalBlock.findVar emb = some v)
    (htriple : ∃ i, consecutiveTripleAt p.globalBlock.ops i)
    (hvars : ∀ o ∈ p.globalBlock.ops,
      (∀ nm ∈ o.input "Ids",
        ((p.globalBlock.findVar nm).isSome = true ∨ nm = emb)) ∧
      (∀ nm ∈ o.output "Out",
        ((p.globalBlock.findVar nm).isSome = true ∨ nm = emb))) :
    (∃ t, getPrefetchOpTuples p = .ok (some t)) ∧
    (convert_dist_to_sparse_program p).err = none ∧
    (convert_dist_to_sparse_program p).ret
      = some ((convert_dist_to_sparse_program p).prog) ∧
    getPrefetchOpTuples cexProgC1 = .ok none ∧
    (convert_dist_to_sparse_program cexProgC1).err
      = some (.typeError "NoneType object is not subscriptable") ∧
    getPrefetchOpTuples cexProgC10err
      = .error (.indexError "list index out of range") := by
  have h2' : (emb == "") = false := beq_eq_false_iff_ne.mpr h2
  obtain ⟨i0, htr⟩ := htriple
  obtain ⟨jm, hjm, hjfirst, hscan⟩ := scanPrefetch_of_exists p.globalBlock.ops
    ⟨i0, codeMatch_of_triple _ _ htr⟩
  obtain ⟨o2, ho2, ht2⟩ := hjm.2.1
  obtain ⟨o3, ho3, ht3⟩ := hjm.2.2
  have hjm1 : jm + 1 < p.globalBlock.ops.length := by
    have ho3' := ho3
    rw [show ((jm : Int) + 1) = ((jm + 1 : Nat) : Int) from by omega] at ho3'
    exact pyGet_some_lt ho3'
  have hopAt2 : opAt p.globalBlock.ops ((jm : Int) - 1) = o2 := by
    simp [opAt, ho2]
  have hopAt3 : opAt p.globalBlock.ops ((jm : Int) + 1) = o3 := by
    simp [opAt, ho3]
  have hrem : ∃ ops1, removeOpsLoop p.globalBlock.ops
      (pyRangeDown (((jm : Int) - 1) + 2) (((jm : Int) - 1) - 1)) = (none, ops1) := by
    rcases Nat.eq_zero_or_pos jm with hz | hpos
    · subst hz
      have hlen3 : 3 ≤ p.globalBlock.ops.length := by
        by_contra hcon
        have hlen2 : p.globalBlock.ops.length = 2 := by omega
        have hne : p.globalBlock.ops ≠ [] := by
          intro hnil
          rw [hnil] at hlen2
          cases hlen2
        have ho2' := ho2
        rw [show ((0 : Nat) : Int) - 1 = (-1 : Int) from by omega,
          pyGet_neg_one _ hne, hlen2] at ho2'
        have ho3' := ho3
        rw [show ((0 : Nat) : Int) + 1 = ((1 : Nat) : Int) from by omega,
          pyGet_natCast] at ho3'
        rw [show (2 : Nat) - 1 = 1 from rfl] at ho2'
        rw [ho3'] at ho2'
        injection ho2' with ho2'
        rw [ho2'] at ht3
        rw [ht2] at ht3
        exact absurd ht3 (by decide)
      have := removeOpsLoop_three_zero p.globalBlock.ops hlen3
      simpa using this
    · obtain ⟨ops1, hops1⟩ : ∃ ops1,
          removeOpsLoop p.globalBlock.ops
            (pyRangeDown (((jm : Int) - 1) + 2) (((jm : Int) - 1) - 1))
          = (none, ops1) :=
        ⟨_, removeOpsLoop_three_pos p.globalBlock.ops jm hpos hjm1⟩
      exact ⟨ops1, hops1⟩
  obtain ⟨ops1, hrem⟩ := hrem
  have hlookups : ∀ pr ∈ ((opAt p.globalBlock.ops ((jm : Int) - 1)).input "Ids").zip
      ((opAt p.globalBlock.ops ((jm : Int) + 1)).output "Out"),
      ((convertBlock2 p.globalBlock emb v).vars.find?
        (fun w => w.name == pr.1)).isSome = true ∧
      ((convertBlock2 p.globalBlock emb v).vars.find?
        (fun w => w.name == pr.2)).isSome = true := by
    intro pr hpr
    obtain ⟨hp1, hp2⟩ := List.of_mem_zip hpr
    rw [hopAt2] at hp1
    rw [hopAt3] at hp2
    constructor
    · exact convertBlock2_findVar_isSome p.globalBlock emb v pr.1
        ((hvars o2 (pyGet_mem ho2)).1 pr.1 hp1)
    · exact convertBlock2_findVar_isSome p.globalBlock emb v pr.2
        ((hvars o3 (pyGet_mem ho3)).2 pr.2 hp2)
  have hinssucc := insertLoop_success (convertBlock2 p.globalBlock emb v).vars emb
    (((opAt p.globalBlock.ops ((jm : Int) - 1)).input "Ids").zip
      ((opAt p.globalBlock.ops ((jm : Int) + 1)).output "Out"))
    ops1 ((jm : Int) - 1) hlookups
  refine ⟨⟨mkTupleAt p.globalBlock.ops jm, hscan⟩, ?_, ?_, rfl, rfl, rfl⟩
  · rw [convert_after_scan p emb v h1 h2' h3]
    simp only [hscan, mkTupleAt]
    rw [hrem]
    rcases hins : insertLoop (convertBlock2 p.globalBlock emb v).vars emb ((jm : Int) - 1)
        ops1
        (((opAt p.globalBlock.ops ((jm : Int) - 1)).input "Ids").zip
          ((opAt p.globalBlock.ops ((jm : Int) + 1)).output "Out"))
      with ⟨e?, ops2⟩
    rw [hins] at hinssucc
    simp only [hins]
    cases e? with
    | none => rfl
    | some e => cases hinssucc
  · rw [convert_after_scan p emb v h1 h2' h3]
    simp only [hscan, mkTupleAt]
    rw [hrem]
    rcases hins : insertLoop (convertBlock2 p.globalBlock emb v).vars emb ((jm : Int) - 1)
        ops1
        (((opAt p.globalBlock.ops ((jm : Int) - 1)).input "Ids").zip
          ((opAt p.globalBlock.ops ((jm : Int) + 1)).output "Out"))
      with ⟨e?, ops2⟩
    rw [hins] at hinssucc
    simp only [hins]
    cases e? with
    | none => rfl
    | some e => cases hinssucc

/-- C5: on a valid call, `load_persistables_for_inference` emits the
checkpoint loads, then runs a convert program holding the `SELECTED_ROWS`
result variable named after the table (same shape and dtype as the
program's table variable), one persistable `SELECTED_ROWS` temporary and
one `load` operator per directory entry containing the table name, a `sum`
operator combining the temporaries into the result variable and a
`delete_var` operator removing them — and returns the program. -/
theorem C5_inference_structure (fs : FileSystem) (env : Env) (dirname tbl : String)
    (p : Program) (v : Var) (entries : List String)
    (h1 : fs.isDir dirname = true)
    (h2 : p.globalBlock.findVar tbl = some v)
    (h3 : fs.listdir (pyJoin dirname lookup_table_dir) = some entries) :
    load_persistables_for_inference fs env dirname (.someProg p) tbl =
      ⟨none,
       load_persistable_vars dirname p [tbl]
         ++ [Event.runProgram
              { globalBlock :=
                  { vars := ⟨v.name, v.shape, v.dtype, .SELECTED_ROWS, true⟩
                      :: (List.range (entries.filter (fun e => strContains e tbl)).length).map
                           (shardVar ⟨v.name, v.shape, v.dtype, .SELECTED_ROWS, true⟩),
                    ops := (List.range (entries.filter (fun e => strContains e tbl)).length).map
                             (shardLoadOp (pyJoin dirname lookup_table_dir)
                               ⟨v.name, v.shape, v.dtype, .SELECTED_ROWS, true⟩)
                      ++ [{ type := "sum",
                            inputs := [("X",
                              (List.range
                                (entries.filter (fun e => strContains e tbl)).length).map
                                  (shardName v.name))],
                            outputs := [("Out", [v.name])], attrs := [] },
                          { type := "delete_var",
                            inputs := [("X",
                              (List.range
                                (entries.filter (fun e => strContains e tbl)).length).map
                                  (shardName v.name))],
                            outputs := [], attrs := [] }] },
                distributedLookupTable := none, version := 0 }],
       some p⟩ := by
  have hbody := inferenceBody_eq fs dirname tbl p v entries h1 h2 h3
  simp only [load_persistables_for_inference, h1]
  simp only [not_true, Bool.true_eq_false, if_false, ite_false]
  rw [hbody]
  rfl

/-- C6 amended: the `load` operators of the convert program read the paths
`<dirname>/__lookup_table__/<table>_<i>` for `i` below the number of
selected directory entries — names generated from the enumeration index —
while the scan discovered the entries themselves; the two coincide only
when the entries are literally named `<table>_0`, `<table>_1`, …. -/
theorem C6_amended_load_paths (fs : FileSystem) (env : Env) (dirname tbl : String)
    (p : Program) (v : Var) (entries : List String)
    (h1 : fs.isDir dirname = true)
    (h2 : p.globalBlock.findVar tbl = some v)
    (h3 : fs.listdir (pyJoin dirname lookup_table_dir) = some entries) :
    load_persistables_for_inference fs env dirname (.someProg p) tbl =
      ⟨none,
       load_persistable_vars dirname p [tbl]
         ++ [Event.runProgram (inferenceConvertProgram dirname tbl v entries)],
       some p⟩ ∧
    loadFilePaths (inferenceConvertProgram dirname tbl v entries).globalBlock
      = (List.range (entries.filter (fun e => strContains e tbl)).length).map
          (fun i => pyJoin (pyJoin dirname lookup_table_dir) (shardName v.name i)) ∧
    discoveredShardFiles fs dirname tbl
      = (entries.filter (fun e => strContains e tbl)).map
          (pyJoin (pyJoin dirname lookup_table_dir)) := by
  refine ⟨?_, ?_, ?_⟩
  · have hbody := inferenceBody_eq fs dirname tbl p v entries h1 h2 h3
    simp only [load_persistables_for_inference, h1]
    simp only [not_true, Bool.true_eq_false, if_false, ite_false]
    exact hbody
  · simp only [loadFilePaths, inferenceConvertProgram, List.filterMap_append,
      List.filterMap_map]
    rw [filterMap_some_eq_map
      (fun i => pyJoin (pyJoin dirname lookup_table_dir) (shardName v.name i))
      (loadFilePathOf ∘ shardLoadOp (pyJoin dirname lookup_table_dir)
        ⟨v.name, v.shape, v.dtype, .SELECTED_ROWS, true⟩)
      (fun i => rfl)]
    simp [List.filterMap_cons, loadFilePathOf]
  · simp [discoveredShardFiles, h3]

/-- C7: with a falsy program argument, `load_persistables_for_inference`
reads `<dirname>/__model__`, parses it, raises `ValueError` exactly when
the parsed program's version is unsupported, and otherwise uses the parsed
program for loading and returns it. -/
theorem C7_parse_model (fs : FileSystem) (env : Env) (dirname tbl : String)
    (content : String)
    (h1 : fs.isDir dirname = true)
    (h2 : fs.readFile (pyJoin dirname model_filename) = some content) :
    ((∃ m, (load_persistables_for_inference fs env dirname .falsy tbl).err
        = some (.valueError m)) ↔
      env.versionSupported (env.parseFromString content).version = false) ∧
    (∀ v entries,
      env.versionSupported (env.parseFromString content).version = true →
      (env.parseFromString content).globalBlock.findVar tbl = some v →
      fs.listdir (pyJoin dirname lookup_table_dir) = some entries →
      load_persistables_for_inference fs env dirname .falsy tbl =
        ⟨none,
         load_persistable_vars dirname (env.parseFromString content) [tbl]
           ++ [Event.runProgram (inferenceConvertProgram dirname tbl v entries)],
         some (env.parseFromString content)⟩) := by
  constructor
  · simp only [load_persistables_for_inference, h1, h2]
    simp only [not_true, Bool.true_eq_false, if_false, ite_false]
    by_cases hv : env.versionSupported (env.parseFromString content).version
    · simp only [hv, not_true, ite_false, if_false]
      constructor
      · rintro ⟨m, hm⟩
        exact absurd hm (inferenceBody_no_valueError fs dirname tbl _ h1 m)
      · intro hfalse
        cases hfalse
    · simp only [hv, not_false_iff, ite_true, if_true]
      constructor
      · intro _
        trivial
      · intro _
        exact ⟨"Unsupported program version", rfl⟩
  · intro v entries hv hfind hls
    have hbody := inferenceBody_eq fs dirname tbl (env.parseFromString content)
      v entries h1 hfind hls
    simp only [load_persistables_for_inference, h1, h2]
    simp only [not_true, Bool.true_eq_false, if_false, ite_false, hv]
    simpa using hbody


/-- C10 counterexample: the triple precondition alone does not make the
conversion complete — when the `split_ids` operator's `Ids` input names a
variable absent from the block, the scan still returns a tuple but the
conversion raises a `KeyError` and returns nothing. -/
theorem C10_counterexample :
    cexProgC10vars.distributedLookupTable = some "emb" ∧
    consecutiveTripleAt cexProgC10vars.globalBlock.ops 1 ∧
    getPrefetchOpTuples cexProgC10vars
      = .ok (some ((0 : Int), ["missing"], ["mout"], ([] : List String))) ∧
    (convert_dist_to_sparse_program cexProgC10vars).err
      = some (.keyError "missing") ∧
    (convert_dist_to_sparse_program cexProgC10vars).ret = none :=
  ⟨rfl, by decide, rfl, rfl, rfl⟩

/-- Witness for C1 amended at the concrete trainer program `goodProg`. -/
theorem C1_amended_witness :
    goodProg.distributedLookupTable = some "emb" ∧
    ("emb" : String) ≠ "" ∧
    goodProg.globalBlock.findVar "emb"
      = some ⟨"emb", [10, 8], "float32", VarType.LOD_TENSOR, true⟩ ∧
    (convert_dist_to_sparse_program goodProg).err = none ∧
    ((convert_dist_to_sparse_program goodProg).ret
        = some ((convert_dist_to_sparse_program goodProg).prog) ∧
      (convert_dist_to_sparse_program goodProg).prog.globalBlock.findVar
          ("emb" ++ ".origin")
        = some ⟨"emb" ++ ".origin", [10, 8], "float32", VarType.LOD_TENSOR, true⟩ ∧
      (convert_dist_to_sparse_program goodProg).prog.globalBlock.findVar "emb"
        = some ⟨"emb", [10, 8], "float32", VarType.SELECTED_ROWS, true⟩) :=
  ⟨rfl, by decide, rfl, by decide,
   C1_amended_conversion goodProg "emb"
     ⟨"emb", [10, 8], "float32", VarType.LOD_TENSOR, true⟩
     rfl (by decide) rfl (by decide)⟩

/-- Witness for C2 amended at `goodProg` (triple at indices 1, 2, 3). -/
theorem C2_amended_witness :
    consecutiveTripleAt goodProg.globalBlock.ops 2 ∧
    (∀ j, j < 2 → ¬ codeMatchAt goodProg.globalBlock.ops j) ∧
    (∃ inserted,
      (convert_dist_to_sparse_program goodProg).prog.globalBlock.ops
        = goodProg.globalBlock.ops.take (2 - 1) ++ inserted
            ++ goodProg.globalBlock.ops.drop (2 + 2) ∧
      ∀ o ∈ inserted, o.type = "lookup_sparse_table") :=
  ⟨by decide,
   fun j hj => by
     have hj01 : j = 0 ∨ j = 1 := by omega
     rcases hj01 with rfl | rfl <;> decide,
   C2_amended_removal goodProg "emb"
     ⟨"emb", [10, 8], "float32", VarType.LOD_TENSOR, true⟩ 2
     rfl (by decide) rfl (by decide)
     (fun j hj => by
       have hj01 : j = 0 ∨ j = 1 := by omega
       rcases hj01 with rfl | rfl <;> decide)⟩

/-- Witness for C3 at `goodProg` (triple at indices 1, 2, 3). -/
theorem C3_witness :
    consecutiveTripleAt goodProg.globalBlock.ops 2 ∧
    (convert_dist_to_sparse_program goodProg).err = none ∧
    ((convert_dist_to_sparse_program goodProg).prog.globalBlock.ops
      = goodProg.globalBlock.ops.take (2 - 1)
          ++ ((((opAt goodProg.globalBlock.ops ((2 : Int) - 1)).input "Ids").zip
                ((opAt goodProg.globalBlock.ops ((2 : Int) + 1)).output "Out")).map
              (fun pr => mkLookupSparseTableOp pr.1 "emb" pr.2)).reverse
          ++ goodProg.globalBlock.ops.drop (2 + 2) ∧
     ∀ pr ∈ ((opAt goodProg.globalBlock.ops ((2 : Int) - 1)).input "Ids").zip
         ((opAt goodProg.globalBlock.ops ((2 : Int) + 1)).output "Out"),
       mkLookupSparseTableOp pr.1 "emb" pr.2
         ∈ (convert_dist_to_sparse_program goodProg).prog.globalBlock.ops) :=
  ⟨by decide, by decide,
   C3_lookup_sparse_table_ops goodProg "emb"
     ⟨"emb", [10, 8], "float32", VarType.LOD_TENSOR, true⟩ 2
     rfl (by decide) rfl (by decide)
     (fun j hj => by
       have hj01 : j = 0 ∨ j = 1 := by omega
       rcases hj01 with rfl | rfl <;> decide)
     (by decide)⟩

/-- Witness for C10 amended at `goodProg`. -/
theorem C10_witness :
    goodProg.distributedLookupTable = some "emb" ∧
    ("emb" : String) ≠ "" ∧
    goodProg.globalBlock.findVar "emb"
      = some ⟨"emb", [10, 8], "float32", VarType.LOD_TENSOR, true⟩ ∧
    (∃ i, consecutiveTripleAt goodProg.globalBlock.ops i) ∧
    (∀ o ∈ goodProg.globalBlock.ops,
      (∀ nm ∈ o.input "Ids",
        ((goodProg.globalBlock.findVar nm).isSome = true ∨ nm = "emb")) ∧
      (∀ nm ∈ o.output "Out",
        ((goodProg.globalBlock.findVar nm).isSome = true ∨ nm = "emb"))) ∧
    ((∃ t, getPrefetchOpTuples goodProg = .ok (some t)) ∧
     (convert_dist_to_sparse_program goodProg).err = none ∧
     (convert_dist_to_sparse_program goodProg).ret
       = some ((convert_dist_to_sparse_program goodProg).prog) ∧
     getPrefetchOpTuples cexProgC1 = .ok none ∧
     (convert_dist_to_sparse_program cexProgC1).err
       = some (.typeError "NoneType object is not subscriptable") ∧
     getPrefetchOpTuples cexProgC10err
       = .error (.indexError "list index out of range")) :=
  ⟨rfl, by decide, rfl, ⟨2, by decide⟩, by decide,
   C10_conversion_completes goodProg "emb"
     ⟨"emb", [10, 8], "float32", VarType.LOD_TENSOR, true⟩
     rfl (by decide) rfl ⟨2, by decide⟩ (by decide)⟩

/-- Witness for C4 at the concrete file system `fsC4` and program `pEmb`. -/
theorem C4_witness :
    fsC4.isDir "d" = true ∧
    fsC4.pathExists "d/table_file" = true ∧
    pEmb.globalBlock.findVar "emb"
      = some ⟨"emb", [10, 8], "float32", VarType.LOD_TENSOR, true⟩ ∧
    (load_persistables_for_increment fsC4 "d" (.someProg pEmb) "emb" "d/table_file" =
      ⟨none,
       ((pEmb.globalBlock.vars.filter
           (fun w => is_valid [] w && !(w.name == "emb"))).map
         (fun w => Event.loadVar "d" w.name))
         ++ [Event.runProgram (incrementLoadProgram "emb" "d/table_file")],
       none⟩ ∧
     (incrementLoadProgram "emb" "d/table_file").globalBlock.ops =
       [{ type := "load", inputs := [], outputs := [("Out", ["emb"])],
          attrs := [("file_path", .s "d/table_file")] }]) :=
  ⟨rfl, rfl, rfl,
   C4_increment_order fsC4 "d" "emb" "d/table_file" pEmb
     ⟨"emb", [10, 8], "float32", VarType.LOD_TENSOR, true⟩ rfl rfl rfl⟩

/-- Witness for C5 at `fsC6` (one shard entry `emb.block0`). -/
theorem C5_witness :
    fsC6.isDir "d" = true ∧
    pEmb.globalBlock.findVar "emb"
      = some ⟨"emb", [10, 8], "float32", VarType.LOD_TENSOR, true⟩ ∧
    fsC6.listdir (pyJoin "d" lookup_table_dir) = some ["emb.block0"] ∧
    load_persistables_for_inference fsC6 envC "d" (.someProg pEmb) "emb" =
      ⟨none,
       load_persistable_vars "d" pEmb ["emb"]
         ++ [Event.runProgram
              { globalBlock :=
                  { vars := ⟨"emb", [10, 8], "float32", .SELECTED_ROWS, true⟩
                      :: (List.range ((["emb.block0"].filter
                            (fun e => strContains e "emb")).length)).map
                           (shardVar ⟨"emb", [10, 8], "float32", .SELECTED_ROWS, true⟩),
                    ops := (List.range ((["emb.block0"].filter
                             (fun e => strContains e "emb")).length)).map
                             (shardLoadOp (pyJoin "d" lookup_table_dir)
                               ⟨"emb", [10, 8], "float32", .SELECTED_ROWS, true⟩)
                      ++ [{ type := "sum",
                            inputs := [("X",
                              (List.range ((["emb.block0"].filter
                                (fun e => strContains e "emb")).length)).map
                                  (shardName "emb"))],
                            outputs := [("Out", ["emb"])], attrs := [] },
                          { type := "delete_var",
                            inputs := [("X",
                              (List.range ((["emb.block0"].filter
                                (fun e => strContains e "emb")).length)).map
                                  (shardName "emb"))],
                            outputs := [], attrs := [] }] },
                distributedLookupTable := none, version := 0 }],
       some pEmb⟩ :=
  ⟨rfl, rfl, rfl,
   C5_inference_structure fsC6 envC "d" "emb" pEmb
     ⟨"emb", [10, 8], "float32", VarType.LOD_TENSOR, true⟩ ["emb.block0"] rfl rfl rfl⟩

/-- Witness for C6 amended at `fsC6`. -/
theorem C6_amended_witness :
    fsC6.isDir "d" = true ∧
    pEmb.globalBlock.findVar "emb"
      = some ⟨"emb", [10, 8], "float32", VarType.LOD_TENSOR, true⟩ ∧
    fsC6.listdir (pyJoin "d" lookup_table_dir) = some ["emb.block0"] ∧
    (load_persistables_for_inference fsC6 envC "d" (.someProg pEmb) "emb" =
      ⟨none,
       load_persistable_vars "d" pEmb ["emb"]
         ++ [Event.runProgram (inferenceConvertProgram "d" "emb"
              ⟨"emb", [10, 8], "float32", VarType.LOD_TENSOR, true⟩ ["emb.block0"])],
       some pEmb⟩ ∧
     loadFilePaths (inferenceConvertProgram "d" "emb"
         ⟨"emb", [10, 8], "float32", VarType.LOD_TENSOR, true⟩
         ["emb.block0"]).globalBlock
       = (List.range ((["emb.block0"].filter
            (fun e => strContains e "emb")).length)).map
           (fun i => pyJoin (pyJoin "d" lookup_table_dir) (shardName "emb" i)) ∧
     discoveredShardFiles fsC6 "d" "emb"
       = (["emb.block0"].filter (fun e => strContains e "emb")).map
           (pyJoin (pyJoin "d" lookup_table_dir))) :=
  ⟨rfl, rfl, rfl,
   C6_amended_load_paths fsC6 envC "d" "emb" pEmb
     ⟨"emb", [10, 8], "float32", VarType.LOD_TENSOR, true⟩ ["emb.block0"] rfl rfl rfl⟩

/-- Witness for C7 at `fsC7` and the environment `envC`. -/
theorem C7_witness :
    fsC7.isDir "d" = true ∧
    fsC7.readFile (pyJoin "d" model_filename) = some "modelbytes" ∧
    (((∃ m, (load_persistables_for_inference fsC7 envC "d" .falsy "emb").err
        = some (.valueError m)) ↔
      envC.versionSupported (envC.parseFromString "modelbytes").version = false) ∧
     (∀ v entries,
      envC.versionSupported (envC.parseFromString "modelbytes").version = true →
      (envC.parseFromString "modelbytes").globalBlock.findVar "emb" = some v →
      fsC7.listdir (pyJoin "d" lookup_table_dir) = some entries →
      load_persistables_for_inference fsC7 envC "d" .falsy "emb" =
        ⟨none,
         load_persistable_vars "d" (envC.parseFromString "modelbytes") ["emb"]
           ++ [Event.runProgram (inferenceConvertProgram "d" "emb" v entries)],
         some (envC.parseFromString "modelbytes")⟩)) :=
  ⟨rfl, rfl, C7_parse_model fsC7 envC "d" "emb" "modelbytes" rfl rfl⟩

/-- Witness for C8 at a falsy program argument. -/
theorem C8_witness :
    ((∃ m, (load_persistables_for_increment fsC4 "d" .falsy "emb" "nope").err
        = some (.valueError m)) ↔
      (fsC4.isDir "d" = false ∨ fsC4.pathExists "nope" = false ∨
        ∀ q, ProgArg.falsy ≠ .someProg q)) ∧
    ((∃ m, (load_persistables_for_increment fsC4 "d" .falsy "emb" "nope").err
        = some (.valueError m)) →
      (load_persistables_for_increment fsC4 "d" .falsy "emb" "nope").events = []) :=
  C8_increment_validation fsC4 "d" .falsy "emb" "nope"


end Paddle
